import Mathlib

/-!
# Tablet metadata record (`be/src/olap/tablet_meta.cpp`)

A shallow embedding of `AlterTabletTask` and `TabletMeta` and theorems about
their operations.

Conventions of the embedding.

* A C++ method that mutates `*this` becomes a function from the record to the
  returned value paired with the new record.
* `std::vector` and `RepeatedPtrField` are lists; a vector iterator is an index.
* Integers are `Int`: the operations only copy and compare them.
* `RowsetMeta`, `RowsetMetaPB`, `TabletSchema` and the metadata store are
  declared outside `tablet_meta.cpp`. They are type parameters `R`, `RPB`, `S`,
  `Store`, and what the file calls on them is collected in `Env`.
* `std::lock_guard` is not modelled: every operation runs alone.
-/

namespace doris

/-! ## Enumerations and wire messages -/

/-- Status codes named in `tablet_meta.cpp`; `OLAP_ERR_CODE` stands for the other
enumerators of `OLAPStatus` (declared in `olap_define.h`). -/
inductive OLAPStatus where
  | OLAP_SUCCESS
  | OLAP_ERR_IO_ERROR
  | OLAP_ERR_OTHER_ERROR
  | OLAP_ERR_SERIALIZE_PROTOBUF_ERROR
  | OLAP_ERR_PARSE_PROTOBUF_ERROR
  | OLAP_ERR_ROWSET_ALREADY_EXIST
  | OLAP_ERR_CODE (code : Int)
  deriving DecidableEq, Repr

open OLAPStatus

/-- A version range `(first, second)`, that is `[start, end]`. -/
abbrev Version := Int × Int

/-- In-memory lifecycle state, the five values assigned in `init_from_pb`. -/
inductive TabletState where
  | TABLET_NOTREADY
  | TABLET_RUNNING
  | TABLET_TOMBSTONED
  | TABLET_STOPPED
  | TABLET_SHUTDOWN
  deriving DecidableEq, Repr

/-- Wire lifecycle state: the five cases of the switch in `init_from_pb`;
`PB_UNKNOWN` is any value that reaches its `default:` branch. -/
inductive TabletStatePB where
  | PB_NOTREADY
  | PB_RUNNING
  | PB_TOMBSTONED
  | PB_STOPPED
  | PB_SHUTDOWN
  | PB_UNKNOWN (tag : Int)
  deriving DecidableEq, Repr

/-- Modelled from the spec: the enum `AlterTabletState` is declared in the
header; the source names only `ALTER_NONE`, the other tags are the states the
data model lists (Running, Failed, Finished). -/
inductive AlterTabletState where
  | ALTER_NONE
  | ALTER_RUNNING
  | ALTER_FAILED
  | ALTER_FINISHED
  deriving DecidableEq, Repr

/-- Modelled from the spec: the alter type tag (schema change or rollup); its
declaration is in the wire schema, the source only copies the value. -/
inductive AlterTabletType where
  | SCHEMA_CHANGE
  | ROLLUP
  deriving DecidableEq, Repr

/-- Key model of a schema, the three values set by the constructor. -/
inductive KeysType where
  | DUP_KEYS
  | UNIQUE_KEYS
  | AGG_KEYS
  deriving DecidableEq, Repr

/-- Compression kind; the source names only `COMPRESS_LZ4`. -/
inductive CompressKind where
  | COMPRESS_LZ4
  deriving DecidableEq, Repr

/-- Wire form of one column: the fields the constructor sets. A field that the
constructor sets only under a condition is optional. -/
structure ColumnPB where
  unique_id : Nat
  name : String
  type : String
  precision : Option Int
  frac : Option Int
  length : Nat
  index_length : Nat
  is_key : Bool
  aggregation : String
  is_nullable : Bool
  default_value : Option String
  is_bf_column : Option Bool
  deriving DecidableEq, Repr

/-- Wire form of the schema: the fields the constructor sets. The bloom filter
false-positive target is a `double` that is only copied; it is a rational here. -/
structure TabletSchemaPB where
  num_short_key_columns : Int
  num_rows_per_row_block : Int
  keys_type : Option KeysType
  compress_kind : Option CompressKind
  column : List ColumnPB
  next_column_unique_id : Nat
  bf_fpp : Option Rat
  deriving DecidableEq, Repr

/-- The schema message with no field set. -/
def TabletSchemaPB.empty : TabletSchemaPB :=
  { num_short_key_columns := 0, num_rows_per_row_block := 0, keys_type := none,
    compress_kind := none, column := [], next_column_unique_id := 0, bf_fpp := none }

/-- One entry of the delete-predicate log: a version and its condition strings. -/
structure DeletePredicatePB where
  version : Int
  sub_predicates : List String
  deriving DecidableEq, Repr

/-- Wire form of an alter task. -/
structure AlterTabletPB (RPB : Type) where
  alter_state : AlterTabletState
  related_tablet_id : Int
  related_schema_hash : Int
  alter_type : AlterTabletType
  rowsets_to_alter : List RPB
  deriving DecidableEq, Repr

/-- The aggregate wire form `TabletMetaPB`: the fields `tablet_meta.cpp` reads or
writes. `tablet_state` and `alter_tablet_task` are optional fields whose
presence matters (`has_alter_tablet_task`, the default of `tablet_state`). -/
structure TabletMetaPB (RPB : Type) where
  table_id : Int
  partition_id : Int
  tablet_id : Int
  schema_hash : Int
  shard_id : Int
  creation_time : Int
  cumulative_layer_point : Int
  tablet_state : Option TabletStatePB
  schema : TabletSchemaPB
  rs_metas : List RPB
  inc_rs_metas : List RPB
  alter_tablet_task : Option (AlterTabletPB RPB)
  deriving DecidableEq, Repr

/-- A newly constructed `TabletMetaPB`: every field at its default. -/
def TabletMetaPB.empty {RPB : Type} : TabletMetaPB RPB :=
  { table_id := 0, partition_id := 0, tablet_id := 0, schema_hash := 0, shard_id := 0,
    creation_time := 0, cumulative_layer_point := 0, tablet_state := none,
    schema := TabletSchemaPB.empty, rs_metas := [], inc_rs_metas := [],
    alter_tablet_task := none }

/-- Handle of the owning storage directory (`DataDir*`), an address. -/
abbrev DataDir := Nat

/-! ## Collaborators declared outside the file -/

/-- What `tablet_meta.cpp` calls on its collaborators.

* `start_version`, `end_version`: accessors of `RowsetMeta`; `version()` is the
  pair of the two.
* `to_rowset_pb r`: the message `r->to_rowset_pb(p)` leaves in a newly added `p`.
* `rs_init_from_pb p`: the rowset `init_from_pb(p)` leaves in a new `RowsetMeta`.
* `to_schema_pb s p`: what `s.to_schema_pb(&p)` leaves in `p`.
* `schema_init_from_pb s p`: status and new schema of `s.init_from_pb(p)`.
* `save`: `TabletMetaManager::save(data_dir, tablet_id, schema_hash, blob)`, a
  step of the store. A blob is a message: `SerializeToString` and
  `ParseFromString` are taken as inverse.
* `pb_tablet_state_default`: what `tablet_state()` returns on a message that does
  not set the field.
* `dcheck_is_on`: whether `DCHECK` is compiled in (debug build). -/
structure Env (R RPB S Store : Type) where
  start_version : R → Int
  end_version : R → Int
  to_rowset_pb : R → RPB
  rs_init_from_pb : RPB → R
  to_schema_pb : S → TabletSchemaPB → TabletSchemaPB
  schema_init_from_pb : S → TabletSchemaPB → OLAPStatus × S
  save : Store → DataDir → Int → Int → TabletMetaPB RPB → OLAPStatus × Store
  pb_tablet_state_default : TabletStatePB
  dcheck_is_on : Bool

/-- The call `rs->version()`. -/
def Env.version {R RPB S Store : Type} (env : Env R RPB S Store) (rs : R) : Version :=
  (env.start_version rs, env.end_version rs)

/-! ## AlterTabletTask -/

/-- Members of `AlterTabletTask`. -/
structure AlterTabletTask (R : Type) where
  _alter_state : AlterTabletState
  _related_tablet_id : Int
  _related_schema_hash : Int
  _alter_type : AlterTabletType
  _rowsets_to_alter : List R
  deriving DecidableEq, Repr

/-- The constructor `AlterTabletTask()`: it initialises the state and the related
ids; `_alter_type` keeps the indeterminate value `ty`. -/
def AlterTabletTask.new {R : Type} (ty : AlterTabletType) : AlterTabletTask R :=
  { _alter_state := AlterTabletState.ALTER_NONE, _related_tablet_id := -1,
    _related_schema_hash := -1, _alter_type := ty, _rowsets_to_alter := [] }

/-- The method `AlterTabletTask::init_from_pb` (lines 32-43). -/
def AlterTabletTask.init_from_pb {R RPB S Store : Type} (env : Env R RPB S Store)
    (self : AlterTabletTask R) (alter_task : AlterTabletPB RPB) :
    OLAPStatus × AlterTabletTask R :=
  (OLAP_SUCCESS,
   { _alter_state := alter_task.alter_state,
     _related_tablet_id := alter_task.related_tablet_id,
     _related_schema_hash := alter_task.related_schema_hash,
     _alter_type := alter_task.alter_type,
     _rowsets_to_alter :=
       self._rowsets_to_alter ++ alter_task.rowsets_to_alter.map env.rs_init_from_pb })

/-- The method `AlterTabletTask::to_alter_pb` (lines 45-54), on the message
`alter_task` it is given. -/
def AlterTabletTask.to_alter_pb {R RPB S Store : Type} (env : Env R RPB S Store)
    (self : AlterTabletTask R) (alter_task : AlterTabletPB RPB) :
    OLAPStatus × AlterTabletPB RPB :=
  (OLAP_SUCCESS,
   { alter_state := self._alter_state,
     related_tablet_id := self._related_tablet_id,
     related_schema_hash := self._related_schema_hash,
     alter_type := self._alter_type,
     rowsets_to_alter :=
       alter_task.rowsets_to_alter ++ self._rowsets_to_alter.map env.to_rowset_pb })

/-- The method `AlterTabletTask::clear` (lines 56-61). -/
def AlterTabletTask.clear {R : Type} (self : AlterTabletTask R) :
    OLAPStatus × AlterTabletTask R :=
  (OLAP_SUCCESS,
   { self with _alter_state := AlterTabletState.ALTER_NONE, _related_tablet_id := -1,
               _related_schema_hash := -1 })

/-! ## TabletMeta -/

/-- Members of `TabletMeta`. -/
structure TabletMeta (R RPB S : Type) where
  _table_id : Int
  _partition_id : Int
  _tablet_id : Int
  _schema_hash : Int
  _shard_id : Int
  _creation_time : Int
  _cumulative_layer_point : Int
  _tablet_state : TabletState
  _schema : S
  _rs_metas : List R
  _inc_rs_metas : List R
  _del_pred_array : List DeletePredicatePB
  _alter_task : AlterTabletTask R
  _tablet_meta_pb : TabletMetaPB RPB
  _data_dir : DataDir
  deriving DecidableEq, Repr

section Operations

variable {R RPB S Store : Type}

/-- The constructor `TabletMeta()` (line 76): members with a constructor of their
own start empty; the scalar members keep the indeterminate values of `u`. -/
def TabletMeta.new (u : TabletMeta R RPB S) : TabletMeta R RPB S :=
  { u with _rs_metas := [], _inc_rs_metas := [], _del_pred_array := [],
           _alter_task := AlterTabletTask.new u._alter_task._alter_type,
           _tablet_meta_pb := TabletMetaPB.empty }

/-- The accessor `tablet_meta_pb.tablet_state()`. -/
def TabletMetaPB.get_tablet_state (env : Env R RPB S Store) (pb : TabletMetaPB RPB) :
    TabletStatePB :=
  match pb.tablet_state with
  | some st => st
  | none => env.pb_tablet_state_default

/-- The switch of `init_from_pb` (lines 259-278): the new `_tablet_state`, given
the current one. -/
def generate_tablet_state (cur : TabletState) : TabletStatePB → TabletState
  | TabletStatePB.PB_NOTREADY => TabletState.TABLET_NOTREADY
  | TabletStatePB.PB_RUNNING => TabletState.TABLET_RUNNING
  | TabletStatePB.PB_TOMBSTONED => TabletState.TABLET_TOMBSTONED
  | TabletStatePB.PB_STOPPED => TabletState.TABLET_STOPPED
  | TabletStatePB.PB_SHUTDOWN => TabletState.TABLET_SHUTDOWN
  | TabletStatePB.PB_UNKNOWN _ => cur

/-- The method `TabletMeta::init_from_pb` (lines 238-285). The decoded rowsets are
pushed onto the sequences the record already holds. -/
def TabletMeta.init_from_pb (env : Env R RPB S Store) (self : TabletMeta R RPB S)
    (tablet_meta_pb : TabletMetaPB RPB) : OLAPStatus × TabletMeta R RPB S :=
  let self := { self with
    _table_id := tablet_meta_pb.table_id,
    _partition_id := tablet_meta_pb.partition_id,
    _tablet_id := tablet_meta_pb.tablet_id,
    _schema_hash := tablet_meta_pb.schema_hash,
    _shard_id := tablet_meta_pb.shard_id,
    _creation_time := tablet_meta_pb.creation_time,
    _cumulative_layer_point := tablet_meta_pb.cumulative_layer_point }
  let sch := env.schema_init_from_pb self._schema tablet_meta_pb.schema
  let self := { self with _schema := sch.2 }
  if sch.1 ≠ OLAP_SUCCESS then (sch.1, self)
  else
    let self := { self with
      _rs_metas := self._rs_metas ++ tablet_meta_pb.rs_metas.map env.rs_init_from_pb }
    let self := { self with
      _inc_rs_metas :=
        self._inc_rs_metas ++ tablet_meta_pb.inc_rs_metas.map env.rs_init_from_pb }
    let self := { self with
      _tablet_state :=
        generate_tablet_state self._tablet_state (tablet_meta_pb.get_tablet_state env) }
    match tablet_meta_pb.alter_tablet_task with
    | some task =>
      let alt := self._alter_task.init_from_pb env task
      let self := { self with _alter_task := alt.2 }
      if alt.1 ≠ OLAP_SUCCESS then (alt.1, self) else (OLAP_SUCCESS, self)
    | none => (OLAP_SUCCESS, self)

/-- The method `TabletMeta::serialize_unlock` (lines 227-230). -/
def TabletMeta.serialize_unlock (self : TabletMeta R RPB S) : OLAPStatus × TabletMetaPB RPB :=
  (OLAP_SUCCESS, self._tablet_meta_pb)

/-- The method `TabletMeta::serialize` (lines 222-225). -/
def TabletMeta.serialize (self : TabletMeta R RPB S) : OLAPStatus × TabletMetaPB RPB :=
  self.serialize_unlock

/-- The method `TabletMeta::deserialize` (lines 232-236): `ParseFromString`
replaces the cached message, then `init_from_pb` runs on it. -/
def TabletMeta.deserialize (env : Env R RPB S Store) (self : TabletMeta R RPB S)
    (meta_binary : TabletMetaPB RPB) : OLAPStatus × TabletMeta R RPB S :=
  let self := { self with _tablet_meta_pb := meta_binary }
  self.init_from_pb env self._tablet_meta_pb

/-- The method `TabletMeta::save_meta_unlock` (lines 292-302). -/
def TabletMeta.save_meta_unlock (env : Env R RPB S Store) (self : TabletMeta R RPB S)
    (store : Store) : OLAPStatus × Store :=
  let meta_binary := self.serialize_unlock.2
  env.save store self._data_dir self._tablet_id self._schema_hash meta_binary

/-- The method `TabletMeta::save_meta` (lines 287-290). -/
def TabletMeta.save_meta (env : Env R RPB S Store) (self : TabletMeta R RPB S)
    (store : Store) : OLAPStatus × Store :=
  self.save_meta_unlock env store

/-- The method `TabletMeta::to_tablet_pb_unlock` (lines 309-327), on the message
`tablet_meta_pb` it is given. It writes neither `tablet_state` nor
`alter_tablet_task`. -/
def TabletMeta.to_tablet_pb_unlock (env : Env R RPB S Store) (self : TabletMeta R RPB S)
    (tablet_meta_pb : TabletMetaPB RPB) : OLAPStatus × TabletMetaPB RPB :=
  (OLAP_SUCCESS,
   { tablet_meta_pb with
     table_id := self._table_id,
     partition_id := self._partition_id,
     tablet_id := self._tablet_id,
     schema_hash := self._schema_hash,
     shard_id := self._shard_id,
     creation_time := self._creation_time,
     cumulative_layer_point := self._cumulative_layer_point,
     rs_metas := tablet_meta_pb.rs_metas ++ self._rs_metas.map env.to_rowset_pb,
     inc_rs_metas := tablet_meta_pb.inc_rs_metas ++ self._inc_rs_metas.map env.to_rowset_pb,
     schema := env.to_schema_pb self._schema tablet_meta_pb.schema })

/-- The method `TabletMeta::to_tablet_pb` (lines 304-307). -/
def TabletMeta.to_tablet_pb (env : Env R RPB S Store) (self : TabletMeta R RPB S)
    (tablet_meta_pb : TabletMetaPB RPB) : OLAPStatus × TabletMetaPB RPB :=
  self.to_tablet_pb_unlock env tablet_meta_pb

/-- The tail shared by the rebuilding mutators (lines 365-370, 387-392, 425-430,
443-448): encode into a new message, make it the cached form, save. -/
def TabletMeta.rebuild_and_save (env : Env R RPB S Store) (self : TabletMeta R RPB S)
    (store : Store) : OLAPStatus × TabletMeta R RPB S × Store :=
  let enc := self.to_tablet_pb_unlock env TabletMetaPB.empty
  if enc.1 ≠ OLAP_SUCCESS then (enc.1, self, store)
  else
    let self := { self with _tablet_meta_pb := enc.2 }
    let saved := self.save_meta_unlock env store
    if saved.1 ≠ OLAP_SUCCESS then (saved.1, self, saved.2)
    else (OLAP_SUCCESS, self, saved.2)

/-- The duplicate check of `add_rs_meta` and `add_inc_rs_meta` (lines 333-339,
399-405): whether the scan meets an entry with the start and end of `rs_meta`. -/
def rowset_already_exist (env : Env R RPB S Store) (rs_meta : R) : List R → Bool
  | [] => false
  | rs :: rest =>
    if env.start_version rs = env.start_version rs_meta
        ∧ env.end_version rs = env.end_version rs_meta then true
    else rowset_already_exist env rs_meta rest

/-- The method `TabletMeta::add_rs_meta` (lines 329-346). -/
def TabletMeta.add_rs_meta (env : Env R RPB S Store) (self : TabletMeta R RPB S)
    (rs_meta : R) : OLAPStatus × TabletMeta R RPB S :=
  if rowset_already_exist env rs_meta self._rs_metas then
    (OLAP_ERR_ROWSET_ALREADY_EXIST, self)
  else
    let self := { self with _rs_metas := self._rs_metas ++ [rs_meta] }
    let self := { self with
      _tablet_meta_pb := { self._tablet_meta_pb with
        rs_metas := self._tablet_meta_pb.rs_metas ++ [env.to_rowset_pb rs_meta] } }
    (OLAP_SUCCESS, self)

/-- The scan loop of `delete_rs_meta_by_version`, `delete_inc_rs_meta_by_version`
and `modify_rs_metas` (lines 353-358, 418-423, 436-441):
`while (it != end()) { if (matches) erase(it); }`. The iterator is the index
`it`; the value `erase` returns is dropped and `it` is never advanced, so it
keeps its position. One unit of `fuel` is one test of the loop condition;
`none` means the fuel ran out before the loop ended. -/
def erase_scan (env : Env R RPB S Store) (version : Version) :
    Nat → List R → Nat → Option (List R)
  | 0, _, _ => none
  | fuel + 1, rs, it =>
    if it = rs.length then some rs
    else
      match rs[it]? with
      | some x =>
        if (env.version x).1 = version.1 ∧ (env.version x).2 = version.2 then
          erase_scan env version fuel (rs.eraseIdx it) it
        else erase_scan env version fuel rs it
      | none => none

/-- The outer loop of `modify_rs_metas` (lines 351-359): one scan from `begin()`
for every entry of `to_delete`. -/
def delete_each (env : Env R RPB S Store) (fuel : Nat) : List R → List R → Option (List R)
  | [], rs => some rs
  | del_rs :: rest, rs =>
    match erase_scan env (env.version del_rs) fuel rs 0 with
    | some rs1 => delete_each env fuel rest rs1
    | none => none

/-- The method `TabletMeta::modify_rs_metas` (lines 348-371); `none` when a scan
loop runs out of `fuel`. -/
def TabletMeta.modify_rs_metas (env : Env R RPB S Store) (fuel : Nat)
    (self : TabletMeta R RPB S) (to_add to_delete : List R) (store : Store) :
    Option (OLAPStatus × TabletMeta R RPB S × Store) :=
  match delete_each env fuel to_delete self._rs_metas with
  | none => none
  | some rs =>
    let self := { self with _rs_metas := rs ++ to_add }
    some (self.rebuild_and_save env store)

/-- The method `TabletMeta::revise_rs_metas` (lines 373-393). -/
def TabletMeta.revise_rs_metas (env : Env R RPB S Store) (self : TabletMeta R RPB S)
    (rs_metas : List R) (store : Store) : OLAPStatus × TabletMeta R RPB S × Store :=
  let self := { self with
    _tablet_meta_pb := { self._tablet_meta_pb with alter_tablet_task := none } }
  let self := { self with _alter_task := self._alter_task.clear.2 }
  let self := { self with _tablet_meta_pb := { self._tablet_meta_pb with rs_metas := [] } }
  let self := { self with _rs_metas := [] }
  let self := { self with _rs_metas := self._rs_metas ++ rs_metas }
  self.rebuild_and_save env store

/-- The method `TabletMeta::add_inc_rs_meta` (lines 395-413). -/
def TabletMeta.add_inc_rs_meta (env : Env R RPB S Store) (self : TabletMeta R RPB S)
    (rs_meta : R) (store : Store) : OLAPStatus × TabletMeta R RPB S × Store :=
  if rowset_already_exist env rs_meta self._inc_rs_metas then
    (OLAP_ERR_ROWSET_ALREADY_EXIST, self, store)
  else
    let self := { self with _inc_rs_metas := self._inc_rs_metas ++ [rs_meta] }
    let self := { self with
      _tablet_meta_pb := { self._tablet_meta_pb with
        inc_rs_metas := self._tablet_meta_pb.inc_rs_metas ++ [env.to_rowset_pb rs_meta] } }
    let saved := self.save_meta_unlock env store
    if saved.1 ≠ OLAP_SUCCESS then (saved.1, self, saved.2)
    else (OLAP_SUCCESS, self, saved.2)

/-- The method `TabletMeta::delete_rs_meta_by_version` (lines 415-431); `none`
when the scan loop runs out of `fuel`. -/
def TabletMeta.delete_rs_meta_by_version (env : Env R RPB S Store) (fuel : Nat)
    (self : TabletMeta R RPB S) (version : Version) (store : Store) :
    Option (OLAPStatus × TabletMeta R RPB S × Store) :=
  match erase_scan env version fuel self._rs_metas 0 with
  | none => none
  | some rs =>
    let self := { self with _rs_metas := rs }
    some (self.rebuild_and_save env store)

/-- The method `TabletMeta::delete_inc_rs_meta_by_version` (lines 433-449); `none`
when the scan loop runs out of `fuel`. -/
def TabletMeta.delete_inc_rs_meta_by_version (env : Env R RPB S Store) (fuel : Nat)
    (self : TabletMeta R RPB S) (version : Version) (store : Store) :
    Option (OLAPStatus × TabletMeta R RPB S × Store) :=
  match erase_scan env version fuel self._inc_rs_metas 0 with
  | none => none
  | some rs =>
    let self := { self with _inc_rs_metas := rs }
    some (self.rebuild_and_save env store)

/-- The loop of `acquire_inc_rs_meta` (lines 454-460) from index `i` on: the
first entry whose version is `version`, `none` for `nullptr`. -/
def acquire_scan (env : Env R RPB S Store) (version : Version) : List R → Option R
  | [] => none
  | rs :: rest =>
    if (env.version rs).1 = version.1 ∧ (env.version rs).2 = version.2 then some rs
    else acquire_scan env version rest

/-- The method `TabletMeta::acquire_inc_rs_meta` (lines 451-462). -/
def TabletMeta.acquire_inc_rs_meta (env : Env R RPB S Store) (self : TabletMeta R RPB S)
    (version : Version) : Option R :=
  acquire_scan env version self._inc_rs_metas

/-- One iteration of the loop of `max_version` (lines 468-473). -/
def max_version_step (env : Env R RPB S Store) (max_version : Version) (rs_meta : R) :
    Version :=
  if env.end_version rs_meta > max_version.2 then env.version rs_meta
  else if env.end_version rs_meta = max_version.2
      ∧ env.start_version rs_meta = max_version.1 then env.version rs_meta
  else max_version

/-- The method `TabletMeta::max_version` (lines 464-476). -/
def TabletMeta.max_version (env : Env R RPB S Store) (self : TabletMeta R RPB S) : Version :=
  self._rs_metas.foldl (max_version_step env) (-1, 0)

/-- The search loop of `add_delete_predicate` (lines 481-487): the value of
`ordinal` when the loop ends, `ordinal` being its value before the entries
still to visit. -/
def find_ordinal (version : Int) : List DeletePredicatePB → Nat → Nat
  | [], ordinal => ordinal
  | del_pred :: rest, ordinal =>
    if del_pred.version = version then ordinal
    else find_ordinal version rest (ordinal + 1)

/-- The loops at lines 493-495 and 499-501: `add_sub_predicates` for every
string of the argument, in order. -/
def add_all_sub_predicates (del_pred : DeletePredicatePB) (preds : List String) :
    DeletePredicatePB :=
  preds.foldl (fun d predicate => { d with sub_predicates := d.sub_predicates ++ [predicate] })
    del_pred

/-- The body of `add_delete_predicate` (lines 481-502) on the array
`_del_pred_array`. -/
def add_delete_predicate_array (arr : List DeletePredicatePB)
    (delete_predicate : DeletePredicatePB) (version : Int) : List DeletePredicatePB :=
  let ordinal := find_ordinal version arr 0
  if ordinal < arr.length then
    arr.modify
      (fun del_pred =>
        add_all_sub_predicates { del_pred with sub_predicates := [] }
          delete_predicate.sub_predicates)
      ordinal
  else
    arr ++ [add_all_sub_predicates { version := version, sub_predicates := [] }
              delete_predicate.sub_predicates]

/-- The method `TabletMeta::add_delete_predicate` (lines 478-504). -/
def TabletMeta.add_delete_predicate (self : TabletMeta R RPB S)
    (delete_predicate : DeletePredicatePB) (version : Int) :
    OLAPStatus × TabletMeta R RPB S :=
  (OLAP_SUCCESS,
   { self with
     _del_pred_array :=
       add_delete_predicate_array self._del_pred_array delete_predicate version })

/-- The call `RepeatedPtrField::SwapElements(i, j)`. -/
def SwapElements (arr : List DeletePredicatePB) (i j : Nat) : List DeletePredicatePB :=
  match arr[i]?, arr[j]? with
  | some a, some b => (arr.set i b).set j a
  | _, _ => arr

/-- The call `RepeatedPtrField::RemoveLast()`. -/
def RemoveLast (arr : List DeletePredicatePB) : List DeletePredicatePB :=
  arr.dropLast

/-- The loop of `remove_delete_predicate_by_version` (lines 510-528), from the
value `ordinal` of the loop variable on; `first` is `version.first`, the only
part of the version the loop reads. After a removal the loop goes on with
`ordinal + 1`. -/
def remove_scan (first : Int) (arr : List DeletePredicatePB) (ordinal : Nat) :
    List DeletePredicatePB :=
  if h : ordinal < arr.length then
    if (arr.get ⟨ordinal, h⟩).version = first then
      remove_scan first (RemoveLast (SwapElements arr ordinal (arr.length - 1))) (ordinal + 1)
    else remove_scan first arr (ordinal + 1)
  else arr
termination_by arr.length - ordinal
decreasing_by
  · have hlen : (RemoveLast (SwapElements arr ordinal (arr.length - 1))).length
        = arr.length - 1 := by
      unfold RemoveLast SwapElements
      split <;> simp
    rw [hlen]; omega
  · omega

/-- The method `TabletMeta::remove_delete_predicate_by_version` (lines 506-530).
With `DCHECK` compiled in, a version with `first != second` ends the process at
line 507: the result is `none`. With `DCHECK` compiled out the line is empty. -/
def TabletMeta.remove_delete_predicate_by_version (env : Env R RPB S Store)
    (self : TabletMeta R RPB S) (version : Version) :
    Option (OLAPStatus × TabletMeta R RPB S) :=
  if env.dcheck_is_on = true ∧ ¬ (version.1 = version.2) then none
  else
    some (OLAP_SUCCESS,
          { self with _del_pred_array := remove_scan version.1 self._del_pred_array 0 })

/-- The method `TabletMeta::delete_predicates` (lines 532-535). -/
def TabletMeta.delete_predicates (self : TabletMeta R RPB S) : List DeletePredicatePB :=
  self._del_pred_array

/-- The loop of `version_for_delete_predicate` (lines 543-547). -/
def has_delete_predicate (first : Int) : List DeletePredicatePB → Bool
  | [] => false
  | del_pred :: rest =>
    if del_pred.version = first then true else has_delete_predicate first rest

/-- The method `TabletMeta::version_for_delete_predicate` (lines 537-550); it is
not `const`, so the record after the call is returned as well. -/
def TabletMeta.version_for_delete_predicate (self : TabletMeta R RPB S) (version : Version) :
    Bool × TabletMeta R RPB S :=
  if version.1 ≠ version.2 then (false, self)
  else (has_delete_predicate version.1 self._del_pred_array, self)

/-- The message `mutable_alter_tablet_task()` returns when the field is not set;
`to_alter_pb` overwrites its scalar fields. -/
def AlterTabletPB.empty : AlterTabletPB RPB :=
  { alter_state := AlterTabletState.ALTER_NONE, related_tablet_id := 0,
    related_schema_hash := 0, alter_type := AlterTabletType.SCHEMA_CHANGE,
    rowsets_to_alter := [] }

/-- The method `TabletMeta::add_alter_task` (lines 552-558). -/
def TabletMeta.add_alter_task (env : Env R RPB S Store) (self : TabletMeta R RPB S)
    (alter_task : AlterTabletTask R) (store : Store) :
    OLAPStatus × TabletMeta R RPB S × Store :=
  let self := { self with _alter_task := alter_task }
  let cur := match self._tablet_meta_pb.alter_tablet_task with
    | some t => t
    | none => AlterTabletPB.empty
  let enc := self._alter_task.to_alter_pb env cur
  let self := { self with
    _tablet_meta_pb := { self._tablet_meta_pb with alter_tablet_task := some enc.2 } }
  if enc.1 ≠ OLAP_SUCCESS then (enc.1, self, store)
  else
    let saved := self.save_meta_unlock env store
    if saved.1 ≠ OLAP_SUCCESS then (saved.1, self, saved.2)
    else (OLAP_SUCCESS, self, saved.2)

/-- The method `TabletMeta::delete_alter_task` (lines 560-566). -/
def TabletMeta.delete_alter_task (env : Env R RPB S Store) (self : TabletMeta R RPB S)
    (store : Store) : OLAPStatus × TabletMeta R RPB S × Store :=
  let self := { self with
    _tablet_meta_pb := { self._tablet_meta_pb with alter_tablet_task := none } }
  let saved := self.save_meta_unlock env store
  if saved.1 ≠ OLAP_SUCCESS then (saved.1, self, saved.2)
  else
    let self := { self with _alter_task := self._alter_task.clear.2 }
    (OLAP_SUCCESS, self, saved.2)

/-- The value an `int32_t` parameter holds when the integer `x` is passed for it:
`x` itself inside the range of `int32_t`, reduced modulo 2^32 into it outside. -/
def to_int32 (x : Int) : Int :=
  (x + 2147483648) % 4294967296 - 2147483648

/-- The method `TabletMeta::set_cumulative_layer_point` (lines 568-574); the
parameter is an `int32_t`. -/
def TabletMeta.set_cumulative_layer_point (env : Env R RPB S Store)
    (self : TabletMeta R RPB S) (new_point : Int) : TabletMeta R RPB S :=
  let self := { self with _cumulative_layer_point := to_int32 new_point }
  { self with _tablet_meta_pb := (self.to_tablet_pb_unlock env TabletMetaPB.empty).2 }

/-- The method `TabletMeta::set_shard_id` (lines 576-582); the parameter is an
`int32_t`. -/
def TabletMeta.set_shard_id (env : Env R RPB S Store) (self : TabletMeta R RPB S)
    (shard_id : Int) : TabletMeta R RPB S :=
  let self := { self with _shard_id := to_int32 shard_id }
  { self with _tablet_meta_pb := (self.to_tablet_pb_unlock env TabletMetaPB.empty).2 }

set_option linter.unusedVariables false in
/-- The method `TabletMeta::set_creation_time` (lines 584-590); line 586 assigns
the member to itself and does not read the parameter. -/
def TabletMeta.set_creation_time (env : Env R RPB S Store) (self : TabletMeta R RPB S)
    (creation_time : Int) : TabletMeta R RPB S :=
  let self := { self with _creation_time := self._creation_time }
  { self with _tablet_meta_pb := (self.to_tablet_pb_unlock env TabletMetaPB.empty).2 }

/-- Encode a record into a new message, then decode the message into a newly
constructed record (`TabletMeta()` followed by `init_from_pb`). -/
def decode_encode (env : Env R RPB S Store) (self u : TabletMeta R RPB S) :
    OLAPStatus × TabletMeta R RPB S :=
  (TabletMeta.new u).init_from_pb env (self.to_tablet_pb_unlock env TabletMetaPB.empty).2

/-- Thrift primitive type: the three values the constructor tests; `OTHER` is
any other enumerator. -/
inductive TPrimitiveType where
  | DECIMAL
  | VARCHAR
  | HLL
  | OTHER (tag : Int)
  deriving DecidableEq, Repr

/-- Thrift aggregation type; the constructor only passes it to `EnumToString`. -/
structure TAggregationType where
  tag : Int
  deriving DecidableEq, Repr

/-- Thrift keys type: the three cases of the switch at lines 97-110; `OTHER` is
any value that reaches its `default:` branch. -/
inductive TKeysType where
  | DUP_KEYS
  | UNIQUE_KEYS
  | AGG_KEYS
  | OTHER (tag : Int)
  deriving DecidableEq, Repr

/-- Thrift column type: the members the constructor reads. An optional member is
`some` exactly when its `__isset` flag is set. -/
structure TColumnType where
  type : TPrimitiveType
  precision : Int
  scale : Int
  len : Int
  index_len : Option Int
  deriving DecidableEq, Repr

/-- Thrift column: the members the constructor reads. -/
structure TColumn where
  column_name : String
  column_type : TColumnType
  is_key : Bool
  aggregation_type : TAggregationType
  is_allow_null : Bool
  default_value : Option String
  is_bloom_filter_column : Option Bool
  deriving DecidableEq, Repr

/-- Thrift schema description: the members the constructor reads. -/
structure TTabletSchema where
  short_key_column_count : Int
  keys_type : TKeysType
  columns : List TColumn
  bloom_filter_fpp : Option Rat
  deriving DecidableEq, Repr

/-- What the constructor calls outside the file: the two uses of the macro
`EnumToString`, `FieldInfo::get_field_length_by_type`, the configuration value
`config::default_num_rows_per_column_file_block` and the clock `time(NULL)`. -/
structure CreateEnv where
  primitive_type_to_string : TPrimitiveType → String
  aggregation_type_to_string : TAggregationType → String
  get_field_length_by_type : TPrimitiveType → Int → Nat
  default_num_rows_per_column_file_block : Int
  time_now : Int

/-- The message `add_column()` returns: no field set. -/
def ColumnPB.empty : ColumnPB :=
  { unique_id := 0, name := "", type := "", precision := none, frac := none, length := 0,
    index_length := 0, is_key := false, aggregation := "", is_nullable := false,
    default_value := none, is_bf_column := none }

/-- The locals of the column loop (lines 114-116) and the columns added so far. -/
structure ColumnLoopState where
  column : List ColumnPB
  col_ordinal : Nat
  key_count : Nat
  has_bf_columns : Bool
  deriving DecidableEq, Repr

/-- One iteration of the column loop (lines 117-158). `none` is the exception
`std::out_of_range` thrown by `col_ordinal_to_unique_id.at`. No statement of
the body assigns `col_ordinal`. -/
def column_loop_step (cenv : CreateEnv) (col_ordinal_to_unique_id : List (Nat × Nat))
    (st : ColumnLoopState) (tcolumn : TColumn) : Option ColumnLoopState :=
  match col_ordinal_to_unique_id.lookup st.col_ordinal with
  | none => none
  | some unique_id =>
    let column := ColumnPB.empty
    let column := { column with unique_id := unique_id }
    let column := { column with name := tcolumn.column_name }
    let data_type := cenv.primitive_type_to_string tcolumn.column_type.type
    let column := { column with type := data_type }
    let column :=
      if tcolumn.column_type.type = TPrimitiveType.DECIMAL then
        { column with precision := some tcolumn.column_type.precision,
                      frac := some tcolumn.column_type.scale }
      else column
    let length := cenv.get_field_length_by_type tcolumn.column_type.type tcolumn.column_type.len
    let column := { column with length := length }
    let column := { column with index_length := length }
    let column :=
      if tcolumn.column_type.type = TPrimitiveType.VARCHAR
          ∨ tcolumn.column_type.type = TPrimitiveType.HLL then
        match tcolumn.column_type.index_len with
        | none => { column with index_length := 10 }
        | some index_len => { column with index_length := (index_len % 4294967296).toNat }
      else column
    let key_count := if ¬ tcolumn.is_key = true then st.key_count else st.key_count + 1
    let column :=
      if ¬ tcolumn.is_key = true then
        { column with is_key := false,
                      aggregation := cenv.aggregation_type_to_string tcolumn.aggregation_type }
      else { column with is_key := true, aggregation := "NONE" }
    let column := { column with is_nullable := tcolumn.is_allow_null }
    let column :=
      match tcolumn.default_value with
      | some v => { column with default_value := some v }
      | none => column
    match tcolumn.is_bloom_filter_column with
    | some b =>
      some { column := st.column ++ [{ column with is_bf_column := some b }],
             col_ordinal := st.col_ordinal, key_count := key_count, has_bf_columns := true }
    | none =>
      some { column := st.column ++ [column], col_ordinal := st.col_ordinal,
             key_count := key_count, has_bf_columns := st.has_bf_columns }

/-- The column loop (lines 117-158) over the columns still to visit. -/
def column_loop (cenv : CreateEnv) (col_ordinal_to_unique_id : List (Nat × Nat)) :
    ColumnLoopState → List TColumn → Option ColumnLoopState
  | st, [] => some st
  | st, tcolumn :: rest =>
    match column_loop_step cenv col_ordinal_to_unique_id st tcolumn with
    | none => none
    | some st1 => column_loop cenv col_ordinal_to_unique_id st1 rest

/-- The switch at lines 97-110. -/
def convert_keys_type : TKeysType → Option KeysType
  | TKeysType.DUP_KEYS => some KeysType.DUP_KEYS
  | TKeysType.UNIQUE_KEYS => some KeysType.UNIQUE_KEYS
  | TKeysType.AGG_KEYS => some KeysType.AGG_KEYS
  | TKeysType.OTHER _ => none

/-- The message the constructor builds in `_tablet_meta_pb` (lines 87-163);
`none` when the column loop throws. -/
def build_tablet_meta_pb (cenv : CreateEnv) (table_id partition_id tablet_id schema_hash : Int)
    (shard_id : Int) (tablet_schema : TTabletSchema) (next_unique_id : Nat)
    (col_ordinal_to_unique_id : List (Nat × Nat)) : Option (TabletMetaPB RPB) :=
  let pb : TabletMetaPB RPB := TabletMetaPB.empty
  let pb := { pb with table_id := table_id, partition_id := partition_id,
                      tablet_id := tablet_id, schema_hash := schema_hash, shard_id := shard_id,
                      creation_time := cenv.time_now, cumulative_layer_point := -1 }
  let schema := pb.schema
  let schema := { schema with
    num_short_key_columns := tablet_schema.short_key_column_count,
    num_rows_per_row_block := cenv.default_num_rows_per_column_file_block }
  let schema := { schema with
    keys_type := match convert_keys_type tablet_schema.keys_type with
      | some k => some k
      | none => schema.keys_type }
  let schema := { schema with compress_kind := some CompressKind.COMPRESS_LZ4 }
  match column_loop cenv col_ordinal_to_unique_id
      { column := schema.column, col_ordinal := 0, key_count := 0, has_bf_columns := false }
      tablet_schema.columns with
  | none => none
  | some st =>
    let schema := { schema with column := st.column }
    let schema := { schema with next_column_unique_id := next_unique_id }
    let schema :=
      match st.has_bf_columns, tablet_schema.bloom_filter_fpp with
      | true, some fpp => { schema with bf_fpp := some fpp }
      | _, _ => schema
    some { pb with schema := schema }

/-- The constructor `TabletMeta::TabletMeta(table_id, ...)` (lines 82-166), named
`construct` here because a definition `TabletMeta.TabletMeta` would hide the
type inside its own namespace: the members start as in `TabletMeta()`, the message is built and `init_from_pb`
runs on it; the status `init_from_pb` returns is dropped. `none` when the
column loop throws. -/
def TabletMeta.construct (env : Env R RPB S Store) (cenv : CreateEnv) (u : TabletMeta R RPB S)
    (table_id partition_id tablet_id schema_hash : Int) (shard_id : Int)
    (tablet_schema : TTabletSchema) (next_unique_id : Nat)
    (col_ordinal_to_unique_id : List (Nat × Nat)) : Option (TabletMeta R RPB S) :=
  match build_tablet_meta_pb cenv table_id partition_id tablet_id schema_hash shard_id
      tablet_schema next_unique_id col_ordinal_to_unique_id with
  | none => none
  | some pb =>
    let self := { TabletMeta.new u with _tablet_meta_pb := pb }
    some (self.init_from_pb env self._tablet_meta_pb).2

/-- The method `TabletMeta::create` (lines 63-74). -/
def TabletMeta.create (env : Env R RPB S Store) (cenv : CreateEnv) (u : TabletMeta R RPB S)
    (table_id partition_id tablet_id schema_hash : Int) (shard_id : Int)
    (tablet_schema : TTabletSchema) (next_unique_id : Nat)
    (col_ordinal_to_unique_id : List (Nat × Nat)) :
    Option (OLAPStatus × TabletMeta R RPB S) :=
  match TabletMeta.construct env cenv u table_id partition_id tablet_id schema_hash shard_id
      tablet_schema next_unique_id col_ordinal_to_unique_id with
  | none => none
  | some tablet_meta => some (OLAP_SUCCESS, tablet_meta)

end Operations

/-! ## A concrete environment for the closed examples -/

/-- A rowset of the examples: `(rowset id, start, end)`. -/
abbrev ExRowset := Int × Int × Int

/-- The store of the examples: the blobs written so far. -/
abbrev ExStore := List (TabletMetaPB ExRowset)

/-- The environment of the examples: a rowset is its own message, a schema is its
own message, and the store accepts every write and records it. -/
def exampleEnv (dcheck : Bool) : Env ExRowset ExRowset TabletSchemaPB ExStore :=
  { start_version := fun r => r.2.1,
    end_version := fun r => r.2.2,
    to_rowset_pb := fun r => r,
    rs_init_from_pb := fun p => p,
    to_schema_pb := fun s _ => s,
    schema_init_from_pb := fun _ p => (OLAP_SUCCESS, p),
    save := fun store _ _ _ blob => (OLAP_SUCCESS, store ++ [blob]),
    pb_tablet_state_default := TabletStatePB.PB_NOTREADY,
    dcheck_is_on := dcheck }

/-- A record of the examples with the given sequences, log and alter task. -/
def exampleMeta (rs inc : List ExRowset) (preds : List DeletePredicatePB)
    (task : AlterTabletTask ExRowset) : TabletMeta ExRowset ExRowset TabletSchemaPB :=
  { _table_id := 1, _partition_id := 2, _tablet_id := 3, _schema_hash := 4, _shard_id := 5,
    _creation_time := 6, _cumulative_layer_point := 7,
    _tablet_state := TabletState.TABLET_RUNNING,
    _schema := TabletSchemaPB.empty, _rs_metas := rs, _inc_rs_metas := inc,
    _del_pred_array := preds, _alter_task := task,
    _tablet_meta_pb := TabletMetaPB.empty, _data_dir := 0 }

/-- An alter task in progress towards tablet 9. -/
def exampleTask : AlterTabletTask ExRowset :=
  { _alter_state := AlterTabletState.ALTER_RUNNING, _related_tablet_id := 9,
    _related_schema_hash := 10, _alter_type := AlterTabletType.ROLLUP,
    _rowsets_to_alter := [] }

/-- The example environment with a store that refuses every write with
`OLAP_ERR_IO_ERROR` and keeps its state. -/
def failingEnv : Env ExRowset ExRowset TabletSchemaPB ExStore :=
  { exampleEnv false with save := fun store _ _ _ _ => (OLAP_ERR_IO_ERROR, store) }

/-- The constructor collaborators of the examples. -/
def exampleCreateEnv : CreateEnv :=
  { primitive_type_to_string := fun t =>
      match t with
      | TPrimitiveType.DECIMAL => "DECIMAL"
      | TPrimitiveType.VARCHAR => "VARCHAR"
      | TPrimitiveType.HLL => "HLL"
      | TPrimitiveType.OTHER _ => "INT",
    aggregation_type_to_string := fun _ => "SUM",
    get_field_length_by_type := fun _ len => len.toNat,
    default_num_rows_per_column_file_block := 1024,
    time_now := 1000 }

/-- A column of the examples: an integer column of length 4 with the given name,
key flag and bloom filter member. -/
def exampleColumn (name : String) (is_key : Bool) (bf : Option Bool) : TColumn :=
  { column_name := name,
    column_type := { type := TPrimitiveType.OTHER 5, precision := 0, scale := 0, len := 4,
                     index_len := none },
    is_key := is_key, aggregation_type := ⟨0⟩, is_allow_null := false,
    default_value := none, is_bloom_filter_column := bf }

/-! ## Theorems -/

section Theorems

variable {R RPB S Store : Type}

/-! ### Shared lemmas on the rowset sequences -/

theorem rowset_already_exist_iff (env : Env R RPB S Store) (rs_meta : R) (l : List R) :
    rowset_already_exist env rs_meta l = true
      ↔ ∃ rs ∈ l, env.version rs = env.version rs_meta := by
  induction l with
  | nil => simp [rowset_already_exist]
  | cons a t ih =>
    unfold rowset_already_exist
    by_cases h : env.start_version a = env.start_version rs_meta
        ∧ env.end_version a = env.end_version rs_meta
    · have hv : env.version a = env.version rs_meta := by
        simp [Env.version, h.1, h.2]
      simp only [h, and_self, if_true, true_iff]
      exact ⟨a, List.mem_cons_self _ _, hv⟩
    · have hv : ¬ env.version a = env.version rs_meta := by
        intro hv
        simp only [Env.version, Prod.mk.injEq] at hv
        exact h hv
      rw [if_neg h, ih]
      simp [hv]

theorem erase_scan_sublist (env : Env R RPB S Store) (version : Version) (fuel : Nat) :
    ∀ (rs : List R) (it : Nat) (out : List R),
      erase_scan env version fuel rs it = some out → out.Sublist rs := by
  induction fuel with
  | zero => intro rs it out h; simp [erase_scan] at h
  | succ n ih =>
    intro rs it out h
    unfold erase_scan at h
    split at h
    · simp only [Option.some.injEq] at h
      exact h ▸ List.Sublist.refl _
    · split at h
      · split at h
        · exact (ih _ _ _ h).trans (List.eraseIdx_sublist _ _)
        · exact ih _ _ _ h
      · simp at h

theorem delete_each_sublist (env : Env R RPB S Store) (fuel : Nat) (to_delete : List R) :
    ∀ (rs out : List R), delete_each env fuel to_delete rs = some out → out.Sublist rs := by
  induction to_delete with
  | nil =>
    intro rs out h
    simp only [delete_each, Option.some.injEq] at h
    exact h ▸ List.Sublist.refl _
  | cons d t ih =>
    intro rs out h
    unfold delete_each at h
    split at h
    · rename_i rs1 h1
      exact (ih _ _ h).trans (erase_scan_sublist env _ fuel _ _ _ h1)
    · simp at h

theorem add_inc_rs_meta_of_exist (env : Env R RPB S Store) (self : TabletMeta R RPB S)
    (rs_meta : R) (store : Store)
    (h : rowset_already_exist env rs_meta self._inc_rs_metas = true) :
    self.add_inc_rs_meta env rs_meta store = (OLAP_ERR_ROWSET_ALREADY_EXIST, self, store) := by
  unfold TabletMeta.add_inc_rs_meta
  rw [if_pos h]

theorem add_inc_rs_meta_of_not_exist (env : Env R RPB S Store) (self : TabletMeta R RPB S)
    (rs_meta : R) (store : Store)
    (h : ¬ rowset_already_exist env rs_meta self._inc_rs_metas = true) :
    (self.add_inc_rs_meta env rs_meta store).2.1._inc_rs_metas = self._inc_rs_metas ++ [rs_meta]
    ∧ (self.add_inc_rs_meta env rs_meta store).2.1._rs_metas = self._rs_metas := by
  unfold TabletMeta.add_inc_rs_meta
  rw [if_neg h]
  dsimp only
  split <;> exact ⟨rfl, rfl⟩

/-! ### Shared lemmas on `max_version` -/

theorem max_version_step_cases (env : Env R RPB S Store) (acc : Version) (rs : R) :
    (max_version_step env acc rs = acc ∨ max_version_step env acc rs = env.version rs)
    ∧ acc.2 ≤ (max_version_step env acc rs).2
    ∧ env.end_version rs ≤ (max_version_step env acc rs).2 := by
  unfold max_version_step
  by_cases h1 : env.end_version rs > acc.2
  · rw [if_pos h1]
    refine ⟨Or.inr rfl, ?_, ?_⟩
    · show acc.2 ≤ env.end_version rs
      omega
    · exact le_refl _
  · rw [if_neg h1]
    by_cases h2 : env.end_version rs = acc.2 ∧ env.start_version rs = acc.1
    · rw [if_pos h2]
      refine ⟨Or.inr rfl, ?_, ?_⟩
      · show acc.2 ≤ env.end_version rs
        omega
      · exact le_refl _
    · rw [if_neg h2]
      refine ⟨Or.inl rfl, le_refl _, ?_⟩
      omega

theorem max_version_fold (env : Env R RPB S Store) (l : List R) :
    ∀ acc : Version,
      (l.foldl (max_version_step env) acc = acc
        ∨ ∃ rs ∈ l, env.version rs = l.foldl (max_version_step env) acc)
      ∧ acc.2 ≤ (l.foldl (max_version_step env) acc).2
      ∧ ∀ rs ∈ l, env.end_version rs ≤ (l.foldl (max_version_step env) acc).2 := by
  induction l with
  | nil => intro acc; simp
  | cons a t ih =>
    intro acc
    obtain ⟨hcase, hacc, hend⟩ := max_version_step_cases env acc a
    obtain ⟨ih1, ih2, ih3⟩ := ih (max_version_step env acc a)
    simp only [List.foldl_cons]
    refine ⟨?_, le_trans hacc ih2, ?_⟩
    · rcases ih1 with h | ⟨rs, hrs, hv⟩
      · rcases hcase with hc | hc
        · exact Or.inl (h.trans hc)
        · exact Or.inr ⟨a, List.mem_cons_self _ _, by rw [h, hc]⟩
      · exact Or.inr ⟨rs, List.mem_cons_of_mem _ hrs, hv⟩
    · intro rs hrs
      rcases List.mem_cons.1 hrs with h | h
      · subst h
        exact le_trans hend ih2
      · exact ih3 rs h

theorem max_version_fold_none (env : Env R RPB S Store) (l : List R)
    (h : ¬ ∃ rs ∈ l, 0 < env.end_version rs) :
    l.foldl (max_version_step env) (-1, 0) = (-1, 0) := by
  induction l with
  | nil => rfl
  | cons a t ih =>
    have ha : ¬ 0 < env.end_version a := fun h0 => h ⟨a, List.mem_cons_self _ _, h0⟩
    have ht : ¬ ∃ rs ∈ t, 0 < env.end_version rs :=
      fun ⟨rs, hrs, h0⟩ => h ⟨rs, List.mem_cons_of_mem _ hrs, h0⟩
    have hstep : max_version_step env (-1, 0) a = (-1, 0) := by
      unfold max_version_step
      have h1 : ¬ env.end_version a > ((-1, 0) : Version).2 := by simpa using ha
      rw [if_neg h1]
      split
      · rename_i h2
        simp only [Env.version, Prod.mk.injEq]
        exact ⟨h2.2, h2.1⟩
      · rfl
    simp only [List.foldl_cons, hstep]
    exact ih ht

/-! ### Shared lemmas on the delete-predicate log -/

theorem find_ordinal_succ (version : Int) (l : List DeletePredicatePB) :
    ∀ n, find_ordinal version l (n + 1) = find_ordinal version l n + 1 := by
  induction l with
  | nil => intro n; rfl
  | cons d t ih =>
    intro n
    unfold find_ordinal
    split
    · rfl
    · exact ih (n + 1)

theorem add_all_sub_predicates_eq (preds : List String) :
    ∀ d : DeletePredicatePB,
      add_all_sub_predicates d preds
        = { version := d.version, sub_predicates := d.sub_predicates ++ preds } := by
  induction preds with
  | nil => intro d; simp [add_all_sub_predicates]
  | cons a t ih =>
    intro d
    have h := ih { d with sub_predicates := d.sub_predicates ++ [a] }
    simp only [add_all_sub_predicates, List.foldl_cons] at h ⊢
    rw [h]
    simp

theorem add_delete_predicate_array_nil (p : DeletePredicatePB) (v : Int) :
    add_delete_predicate_array [] p v = [⟨v, p.sub_predicates⟩] := by
  simp [add_delete_predicate_array, find_ordinal, add_all_sub_predicates_eq]

theorem add_delete_predicate_array_cons (d : DeletePredicatePB) (t : List DeletePredicatePB)
    (p : DeletePredicatePB) (v : Int) :
    add_delete_predicate_array (d :: t) p v
      = if d.version = v then ⟨d.version, p.sub_predicates⟩ :: t
        else d :: add_delete_predicate_array t p v := by
  by_cases h : d.version = v
  · simp [add_delete_predicate_array, find_ordinal, h, add_all_sub_predicates_eq]
  · rw [if_neg h]
    simp only [add_delete_predicate_array, find_ordinal, if_neg h, Nat.zero_add,
      find_ordinal_succ v t 0, List.length_cons, Nat.add_lt_add_iff_right,
      List.modify_succ_cons]
    split <;> simp

theorem add_delete_predicate_array_others (p : DeletePredicatePB) (v : Int)
    (l : List DeletePredicatePB) :
    (add_delete_predicate_array l p v).filter (fun d => decide (¬ d.version = v))
      = l.filter (fun d => decide (¬ d.version = v)) := by
  induction l with
  | nil => simp [add_delete_predicate_array_nil]
  | cons d t ih =>
    rw [add_delete_predicate_array_cons]
    by_cases h : d.version = v
    · simp [h]
    · simpa [h] using ih

theorem add_delete_predicate_array_versions (p : DeletePredicatePB) (v : Int)
    (l : List DeletePredicatePB) :
    (v ∈ l.map (fun d => d.version)
        ∧ (add_delete_predicate_array l p v).map (fun d => d.version)
            = l.map (fun d => d.version))
    ∨ (v ∉ l.map (fun d => d.version)
        ∧ (add_delete_predicate_array l p v).map (fun d => d.version)
            = l.map (fun d => d.version) ++ [v]) := by
  induction l with
  | nil => right; simp [add_delete_predicate_array_nil]
  | cons d t ih =>
    rw [add_delete_predicate_array_cons]
    by_cases h : d.version = v
    · left; simp [h]
    · have hv : ¬ v = d.version := fun e => h e.symm
      rcases ih with ⟨hm, he⟩ | ⟨hm, he⟩
      · left
        refine ⟨List.mem_cons_of_mem _ hm, ?_⟩
        simp [h, he]
      · right
        refine ⟨?_, ?_⟩
        · simp only [List.map_cons, List.mem_cons, not_or]
          exact ⟨hv, hm⟩
        · simp [h, he]

theorem add_delete_predicate_array_present (q : DeletePredicatePB) (v : Int)
    (l : List DeletePredicatePB) (hmem : v ∈ l.map (fun d => d.version))
    (hnd : (l.map (fun d => d.version)).Nodup) :
    (add_delete_predicate_array l q v).filter (fun d => decide (d.version = v))
      = [⟨v, q.sub_predicates⟩] := by
  induction l with
  | nil => simp at hmem
  | cons d t ih =>
    rw [add_delete_predicate_array_cons]
    simp only [List.map_cons, List.nodup_cons] at hnd
    by_cases h : d.version = v
    · have ht : ∀ x ∈ t, ¬ x.version = v := by
        intro x hx hxv
        apply hnd.1
        rw [h, ← hxv]
        exact List.mem_map_of_mem _ hx
      have hf : t.filter (fun d => decide (d.version = v)) = [] := by
        rw [List.filter_eq_nil_iff]
        intro x hx
        simpa using ht x hx
      simp [h, hf]
    · have hmem2 : v ∈ t.map (fun d => d.version) := by
        simp only [List.map_cons, List.mem_cons] at hmem
        rcases hmem with e | e
        · exact absurd e.symm h
        · exact e
      simp [h, ih hmem2 hnd.2]

theorem has_delete_predicate_iff (first : Int) (l : List DeletePredicatePB) :
    has_delete_predicate first l = true ↔ ∃ d ∈ l, d.version = first := by
  induction l with
  | nil => simp [has_delete_predicate]
  | cons a t ih =>
    unfold has_delete_predicate
    by_cases h : a.version = first
    · simp [h]
    · simp [h, ih]

theorem rebuild_and_save_record (env : Env R RPB S Store) (self : TabletMeta R RPB S)
    (store : Store) :
    (self.rebuild_and_save env store).2.1
      = { self with _tablet_meta_pb := (self.to_tablet_pb_unlock env TabletMetaPB.empty).2 } := by
  unfold TabletMeta.rebuild_and_save
  simp only [TabletMeta.to_tablet_pb_unlock, ne_eq, not_true_eq_false, if_false]
  split <;> rfl

theorem add_rs_meta_status (env : Env R RPB S Store) (self : TabletMeta R RPB S) (rs_meta : R) :
    (self.add_rs_meta env rs_meta).1
      = if rowset_already_exist env rs_meta self._rs_metas = true
        then OLAP_ERR_ROWSET_ALREADY_EXIST else OLAP_SUCCESS := by
  unfold TabletMeta.add_rs_meta
  split <;> rfl

theorem add_rs_meta_of_not_exist (env : Env R RPB S Store) (self : TabletMeta R RPB S)
    (rs_meta : R) (h : ¬ rowset_already_exist env rs_meta self._rs_metas = true) :
    (self.add_rs_meta env rs_meta).2._rs_metas = self._rs_metas ++ [rs_meta]
    ∧ (self.add_rs_meta env rs_meta).2._inc_rs_metas = self._inc_rs_metas := by
  unfold TabletMeta.add_rs_meta
  rw [if_neg h]
  exact ⟨rfl, rfl⟩

theorem add_inc_rs_meta_status_of_saved (env : Env R RPB S Store) (self : TabletMeta R RPB S)
    (rs_meta : R) (store : Store)
    (h : ¬ rowset_already_exist env rs_meta self._inc_rs_metas = true)
    (hsave : ∀ d t h b, (env.save store d t h b).1 = OLAP_SUCCESS) :
    (self.add_inc_rs_meta env rs_meta store).1 = OLAP_SUCCESS := by
  unfold TabletMeta.add_inc_rs_meta
  rw [if_neg h]
  dsimp only
  split
  · rename_i hs
    exact absurd (hsave _ _ _ _) hs
  · rfl

theorem erase_scan_stuck (env : Env R RPB S Store) (version : Version) (x : R) (t : List R)
    (h : ¬ ((env.version x).1 = version.1 ∧ (env.version x).2 = version.2)) :
    ∀ fuel, erase_scan env version fuel (x :: t) 0 = none := by
  intro fuel
  induction fuel with
  | zero => rfl
  | succ n ih =>
    unfold erase_scan
    have hlen : ¬ (0 = (x :: t).length) := by simp
    rw [if_neg hlen]
    simp only [List.getElem?_cons_zero]
    rw [if_neg h]
    exact ih

theorem rebuild_and_save_status (env : Env R RPB S Store) (self : TabletMeta R RPB S)
    (store : Store) :
    (self.rebuild_and_save env store).1
      = (env.save store self._data_dir self._tablet_id self._schema_hash
          (self.rebuild_and_save env store).2.1._tablet_meta_pb).1 := by
  rw [rebuild_and_save_record]
  unfold TabletMeta.rebuild_and_save
  simp only [TabletMeta.to_tablet_pb_unlock, ne_eq, not_true_eq_false, if_false,
    TabletMeta.save_meta_unlock, TabletMeta.serialize_unlock]
  split
  · rfl
  · rename_i h
    simp only [not_not] at h
    exact h.symm

theorem add_inc_rs_meta_status_of_not_exist (env : Env R RPB S Store)
    (self : TabletMeta R RPB S) (rs_meta : R) (store : Store)
    (h : ¬ rowset_already_exist env rs_meta self._inc_rs_metas = true) :
    (self.add_inc_rs_meta env rs_meta store).1
      = (env.save store self._data_dir self._tablet_id self._schema_hash
          (self.add_inc_rs_meta env rs_meta store).2.1._tablet_meta_pb).1 := by
  unfold TabletMeta.add_inc_rs_meta
  rw [if_neg h]
  simp only [TabletMeta.save_meta_unlock, TabletMeta.serialize_unlock]
  split
  · rfl
  · rename_i hs
    simp only [ne_eq, not_not] at hs
    simp only [hs]

theorem revise_rs_metas_rs_metas (env : Env R RPB S Store) (self : TabletMeta R RPB S)
    (new_set : List R) (store : Store) :
    (self.revise_rs_metas env new_set store).2.1._rs_metas = new_set := by
  unfold TabletMeta.revise_rs_metas
  rw [rebuild_and_save_record]
  simp

theorem acquire_scan_none (env : Env R RPB S Store) (version : Version) (l : List R) :
    acquire_scan env version l = none ↔ ∀ x ∈ l, env.version x ≠ version := by
  induction l with
  | nil => simp [acquire_scan]
  | cons a t ih =>
    unfold acquire_scan
    by_cases h : (env.version a).1 = version.1 ∧ (env.version a).2 = version.2
    · have hv : env.version a = version := Prod.ext h.1 h.2
      simp [h, hv]
    · have hv : env.version a ≠ version := fun e => h ⟨by rw [e], by rw [e]⟩
      rw [if_neg h, ih]
      simp [hv]

theorem acquire_scan_some (env : Env R RPB S Store) (version : Version) (l : List R) (r : R)
    (h : acquire_scan env version l = some r) :
    ∃ pre post, l = pre ++ r :: post ∧ (∀ x ∈ pre, env.version x ≠ version)
      ∧ env.version r = version := by
  induction l with
  | nil => simp [acquire_scan] at h
  | cons a t ih =>
    unfold acquire_scan at h
    by_cases hm : (env.version a).1 = version.1 ∧ (env.version a).2 = version.2
    · rw [if_pos hm] at h
      simp only [Option.some.injEq] at h
      subst h
      exact ⟨[], t, rfl, by simp, Prod.ext hm.1 hm.2⟩
    · rw [if_neg hm] at h
      obtain ⟨pre, post, hl, hpre, hr⟩ := ih h
      have hv : env.version a ≠ version := fun e => hm ⟨by rw [e], by rw [e]⟩
      refine ⟨a :: pre, post, by rw [hl]; rfl, ?_, hr⟩
      intro x hx
      rcases List.mem_cons.1 hx with e | e
      · rw [e]; exact hv
      · exact hpre x e

theorem max_version_step_eq (env : Env R RPB S Store) (acc : Version) (rs : R) :
    max_version_step env acc rs
      = if env.end_version rs > acc.2 then env.version rs else acc := by
  unfold max_version_step
  by_cases h1 : env.end_version rs > acc.2
  · rw [if_pos h1, if_pos h1]
  · rw [if_neg h1, if_neg h1]
    split
    · rename_i h2
      exact Prod.ext h2.2 h2.1
    · rfl

theorem max_version_fold_first (env : Env R RPB S Store) (l : List R) :
    ∀ acc : Version,
      ((∀ x ∈ l, env.end_version x ≤ acc.2) ∧ l.foldl (max_version_step env) acc = acc)
      ∨ ∃ pre r post, l = pre ++ r :: post
          ∧ acc.2 < env.end_version r
          ∧ (∀ x ∈ pre, env.end_version x < env.end_version r)
          ∧ (∀ x ∈ post, env.end_version x ≤ env.end_version r)
          ∧ l.foldl (max_version_step env) acc = env.version r := by
  induction l with
  | nil => intro acc; left; simp
  | cons a t ih =>
    intro acc
    simp only [List.foldl_cons]
    rw [max_version_step_eq]
    by_cases h : env.end_version a > acc.2
    · rw [if_pos h]
      right
      rcases ih (env.version a) with ⟨hall, hf⟩ | ⟨pre, r, post, hl, hlt, hpre, hpost, hf⟩
      · exact ⟨[], a, t, rfl, h, by simp, hall, hf⟩
      · have hlt2 : env.end_version a < env.end_version r := hlt
        refine ⟨a :: pre, r, post, by rw [hl]; rfl, by omega, ?_, hpost, hf⟩
        intro x hx
        rcases List.mem_cons.1 hx with e | e
        · rw [e]; exact hlt2
        · exact hpre x e
    · rw [if_neg h]
      rcases ih acc with ⟨hall, hf⟩ | ⟨pre, r, post, hl, hlt, hpre, hpost, hf⟩
      · left
        refine ⟨?_, hf⟩
        intro x hx
        rcases List.mem_cons.1 hx with e | e
        · rw [e]; omega
        · exact hall x e
      · right
        refine ⟨a :: pre, r, post, by rw [hl]; rfl, hlt, ?_, hpost, hf⟩
        intro x hx
        rcases List.mem_cons.1 hx with e | e
        · rw [e]; omega
        · exact hpre x e

/-! ### Shared lemmas on the scan loop of the delete paths -/

theorem SwapElements_perm (arr : List DeletePredicatePB) (i j : Nat) :
    (SwapElements arr i j).Perm arr := by
  unfold SwapElements
  split
  · rename_i a b ha hb
    obtain ⟨hi, hai⟩ := List.getElem?_eq_some_iff.1 ha
    obtain ⟨hj, hbj⟩ := List.getElem?_eq_some_iff.1 hb
    by_cases hij : i = j
    · subst hij
      have hab : a = b := by rw [← hai, ← hbj]
      subst hab
      rw [List.perm_iff_count]
      intro x
      have hi2 : i < (arr.set i a).length := by simpa using hi
      rw [List.count_set _ _ _ _ hi2, List.getElem_set_self, List.count_set _ _ _ _ hi, hai]
      have h1 : (if (a == x) = true then 1 else 0) ≤ arr.count x := by
        have := List.boole_getElem_le_countP (fun y => y == x) arr i hi
        rw [hai] at this
        exact this
      split_ifs at h1 ⊢ <;> omega
    · rw [List.perm_iff_count]
      intro x
      have hj2 : j < (arr.set i b).length := by simpa using hj
      rw [List.count_set _ _ _ _ hj2, List.getElem_set_ne hij, List.count_set _ _ _ _ hi, hai, hbj]
      have h1 : (if (a == x) = true then 1 else 0) ≤ arr.count x := by
        have := List.boole_getElem_le_countP (fun y => y == x) arr i hi
        rw [hai] at this
        exact this
      have h2 : (if (b == x) = true then 1 else 0) ≤ arr.count x := by
        have := List.boole_getElem_le_countP (fun y => y == x) arr j hj
        rw [hbj] at this
        exact this
      split_ifs at h1 h2 ⊢ <;> omega
  · exact List.Perm.refl _

theorem SwapElements_eq (arr : List DeletePredicatePB) (i j : Nat) (hi : i < arr.length)
    (hj : j < arr.length) : SwapElements arr i j = (arr.set i arr[j]).set j arr[i] := by
  simp [SwapElements, List.getElem?_eq_getElem hi, List.getElem?_eq_getElem hj]

theorem swap_pop_perm (arr : List DeletePredicatePB) (i : Nat) (hi : i < arr.length) :
    arr.Perm (RemoveLast (SwapElements arr i (arr.length - 1)) ++ [arr[i]]) := by
  have hj : arr.length - 1 < arr.length := by omega
  have hperm := SwapElements_perm arr i (arr.length - 1)
  have hlen : (SwapElements arr i (arr.length - 1)).length = arr.length := hperm.length_eq
  have hne : SwapElements arr i (arr.length - 1) ≠ [] := by
    intro h
    rw [h] at hlen
    simp at hlen
    omega
  have hlast : (SwapElements arr i (arr.length - 1)).getLast hne = arr[i] := by
    rw [List.getLast_eq_getElem]
    simp only [hlen]
    simp [SwapElements_eq arr i (arr.length - 1) hi hj]
  have hcat := List.dropLast_concat_getLast hne
  rw [hlast] at hcat
  unfold RemoveLast
  rw [hcat]
  exact hperm.symm

theorem remove_scan_no_match (first : Int) (arr : List DeletePredicatePB) (ordinal : Nat)
    (hno : ∀ d ∈ arr, d.version ≠ first) : remove_scan first arr ordinal = arr := by
  induction arr, ordinal using remove_scan.induct first with
  | case1 arr ordinal hlt hmatch _ =>
    exact absurd hmatch (hno _ (List.get_mem arr ordinal hlt))
  | case2 arr ordinal hlt hne ih =>
    rw [remove_scan, dif_pos hlt, if_neg hne]
    exact ih hno
  | case3 arr ordinal hge =>
    rw [remove_scan, dif_neg hge]

theorem remove_scan_spec (first : Int) :
    ∀ (arr : List DeletePredicatePB) (ordinal : Nat),
      (∀ j (h : j < arr.length), j < ordinal → (arr.get ⟨j, h⟩).version ≠ first) →
      arr.countP (fun d => decide (d.version = first)) ≤ 1 →
      (∀ d ∈ remove_scan first arr ordinal, d.version ≠ first)
      ∧ (remove_scan first arr ordinal).Perm
          (arr.filter (fun d => decide (¬ d.version = first))) := by
  intro arr ordinal
  induction arr, ordinal using remove_scan.induct first with
  | case1 arr ordinal hlt hmatch _ =>
    intro _ hcount
    have hperm := swap_pop_perm arr ordinal hlt
    have hc := hperm.countP_eq (fun d => decide (d.version = first))
    have hv : (arr[ordinal]).version = first := hmatch
    simp only [List.countP_append, List.countP_cons, List.countP_nil, hv, decide_True,
      if_true] at hc
    have hzero : (RemoveLast (SwapElements arr ordinal (arr.length - 1))).countP
        (fun d => decide (d.version = first)) = 0 := by omega
    have hno : ∀ d ∈ RemoveLast (SwapElements arr ordinal (arr.length - 1)),
        d.version ≠ first := by
      intro d hd
      have := (List.countP_eq_zero.1 hzero) d hd
      simpa using this
    rw [remove_scan, dif_pos hlt, if_pos hmatch, remove_scan_no_match first _ _ hno]
    refine ⟨hno, ?_⟩
    have hf := hperm.filter (fun d => decide (¬ d.version = first))
    have hfa : [arr[ordinal]].filter (fun d => decide (¬ d.version = first)) = [] := by
      simp [hv]
    rw [List.filter_append, hfa, List.append_nil] at hf
    have hself : (RemoveLast (SwapElements arr ordinal (arr.length - 1))).filter
        (fun d => decide (¬ d.version = first))
        = RemoveLast (SwapElements arr ordinal (arr.length - 1)) := by
      rw [List.filter_eq_self]
      intro d hd
      simpa using hno d hd
    rw [hself] at hf
    exact hf.symm
  | case2 arr ordinal hlt hne ih =>
    intro hpre hcount
    rw [remove_scan, dif_pos hlt, if_neg hne]
    apply ih _ hcount
    intro j hj hjlt
    by_cases e : j = ordinal
    · subst e; exact hne
    · exact hpre j hj (by omega)
  | case3 arr ordinal hge =>
    intro hpre _
    rw [remove_scan, dif_neg hge]
    have hno : ∀ d ∈ arr, d.version ≠ first := by
      intro d hd
      obtain ⟨n, hn⟩ := List.get_of_mem hd
      rw [← hn]
      exact hpre n.1 n.2 (by omega)
    refine ⟨hno, ?_⟩
    have hself : arr.filter (fun d => decide (¬ d.version = first)) = arr := by
      rw [List.filter_eq_self]
      intro d hd
      simpa using hno d hd
    rw [hself]

/-! ### Claims -/

/-- C1 (as stated, refuted): in the example environment, whose rowset and schema
codecs round-trip, a running record with one delete predicate and an alter task
in progress is not recovered by encode-then-decode: the decoded record has
another lifecycle state, an empty delete-predicate log and no alter task. -/
theorem decode_encode_loses_state_predicates_task :
    (∀ r, (exampleEnv false).rs_init_from_pb ((exampleEnv false).to_rowset_pb r) = r)
    ∧ (∀ s0 s, (exampleEnv false).schema_init_from_pb s0
          ((exampleEnv false).to_schema_pb s TabletSchemaPB.empty) = (OLAP_SUCCESS, s))
    ∧ (decode_encode (exampleEnv false)
          (exampleMeta [(1, 0, 0)] [] [⟨5, ["a>1"]⟩] exampleTask)
          (exampleMeta [] [] [] (AlterTabletTask.new AlterTabletType.ROLLUP))).2._tablet_state
        ≠ (exampleMeta [(1, 0, 0)] [] [⟨5, ["a>1"]⟩] exampleTask)._tablet_state
    ∧ (decode_encode (exampleEnv false)
          (exampleMeta [(1, 0, 0)] [] [⟨5, ["a>1"]⟩] exampleTask)
          (exampleMeta [] [] [] (AlterTabletTask.new AlterTabletType.ROLLUP))).2._del_pred_array
        ≠ (exampleMeta [(1, 0, 0)] [] [⟨5, ["a>1"]⟩] exampleTask)._del_pred_array
    ∧ (decode_encode (exampleEnv false)
          (exampleMeta [(1, 0, 0)] [] [⟨5, ["a>1"]⟩] exampleTask)
          (exampleMeta [] [] [] (AlterTabletTask.new AlterTabletType.ROLLUP))).2._alter_task
        ≠ (exampleMeta [(1, 0, 0)] [] [⟨5, ["a>1"]⟩] exampleTask)._alter_task := by
  refine ⟨fun _ => rfl, fun _ _ => rfl, ?_, ?_, ?_⟩ <;> decide

/-- C1 (amended): when the rowset codec and the schema codec round-trip, encoding
any record into a new message and decoding it into a newly constructed record
succeeds and gives back the identity fields, the creation time, the cumulative
layer point, the schema, `rs_metas` and `inc_rs_metas`; the delete-predicate
log is not part of the message and the decoded log is empty. -/
theorem decode_encode_roundtrip (env : Env R RPB S Store)
    (hrs : ∀ r, env.rs_init_from_pb (env.to_rowset_pb r) = r)
    (hsch : ∀ s0 s, env.schema_init_from_pb s0 (env.to_schema_pb s TabletSchemaPB.empty)
              = (OLAP_SUCCESS, s))
    (self u : TabletMeta R RPB S) :
    (decode_encode env self u).1 = OLAP_SUCCESS
    ∧ (decode_encode env self u).2._table_id = self._table_id
    ∧ (decode_encode env self u).2._partition_id = self._partition_id
    ∧ (decode_encode env self u).2._tablet_id = self._tablet_id
    ∧ (decode_encode env self u).2._schema_hash = self._schema_hash
    ∧ (decode_encode env self u).2._shard_id = self._shard_id
    ∧ (decode_encode env self u).2._creation_time = self._creation_time
    ∧ (decode_encode env self u).2._cumulative_layer_point = self._cumulative_layer_point
    ∧ (decode_encode env self u).2._schema = self._schema
    ∧ (decode_encode env self u).2._rs_metas = self._rs_metas
    ∧ (decode_encode env self u).2._inc_rs_metas = self._inc_rs_metas
    ∧ (decode_encode env self u).2._del_pred_array = [] := by
  have hmap : ∀ l : List R, List.map (env.rs_init_from_pb ∘ env.to_rowset_pb) l = l := by
    intro l
    induction l with
    | nil => rfl
    | cons a t ih => simp [hrs, ih]
  simp [decode_encode, TabletMeta.new, TabletMeta.init_from_pb,
    TabletMeta.to_tablet_pb_unlock, TabletMetaPB.empty, hsch, hmap]

/-- C1 (amended), applied in the example environment to a running record with
rowsets, a delete predicate and an alter task. -/
theorem decode_encode_roundtrip_witness :
    (∀ r, (exampleEnv false).rs_init_from_pb ((exampleEnv false).to_rowset_pb r) = r)
    ∧ (decode_encode (exampleEnv false)
          (exampleMeta [(1, 0, 0), (2, 1, 5)] [(3, 6, 6)] [⟨5, ["a>1"]⟩] exampleTask)
          (exampleMeta [] [] [] exampleTask)).2._rs_metas = [(1, 0, 0), (2, 1, 5)] :=
  ⟨fun _ => rfl,
   (decode_encode_roundtrip (exampleEnv false) (fun _ => rfl) (fun _ _ => rfl)
      (exampleMeta [(1, 0, 0), (2, 1, 5)] [(3, 6, 6)] [⟨5, ["a>1"]⟩] exampleTask)
      (exampleMeta [] [] [] exampleTask)).2.2.2.2.2.2.2.2.2.1⟩

/-- C2: `add_rs_meta(rs)` returns `OLAP_ERR_ROWSET_ALREADY_EXIST` exactly when
`rs_metas` already holds an entry with the `(start, end)` of `rs`; in that case
the whole record (so `rs_metas`, `inc_rs_metas` and the cached aggregate form)
is unchanged; otherwise it returns `OLAP_SUCCESS`, `rs_metas` is the previous
sequence with `rs` appended at the end and `inc_rs_metas` is unchanged. -/
theorem add_rs_meta_already_exist_iff (env : Env R RPB S Store) (self : TabletMeta R RPB S)
    (rs_meta : R) :
    ((self.add_rs_meta env rs_meta).1 = OLAP_ERR_ROWSET_ALREADY_EXIST
        ↔ ∃ rs ∈ self._rs_metas, env.version rs = env.version rs_meta)
    ∧ (((∃ rs ∈ self._rs_metas, env.version rs = env.version rs_meta)
          ∧ self.add_rs_meta env rs_meta = (OLAP_ERR_ROWSET_ALREADY_EXIST, self))
       ∨ ((¬ ∃ rs ∈ self._rs_metas, env.version rs = env.version rs_meta)
          ∧ (self.add_rs_meta env rs_meta).1 = OLAP_SUCCESS
          ∧ (self.add_rs_meta env rs_meta).2._rs_metas = self._rs_metas ++ [rs_meta]
          ∧ (self.add_rs_meta env rs_meta).2._inc_rs_metas = self._inc_rs_metas)) := by
  by_cases h : rowset_already_exist env rs_meta self._rs_metas = true
  · have hex := (rowset_already_exist_iff env rs_meta self._rs_metas).1 h
    simp only [TabletMeta.add_rs_meta, h, if_true, true_iff]
    exact ⟨hex, Or.inl ⟨hex, trivial⟩⟩
  · have hex : ¬ ∃ rs ∈ self._rs_metas, env.version rs = env.version rs_meta :=
      fun hex => h ((rowset_already_exist_iff env rs_meta self._rs_metas).2 hex)
    simp only [TabletMeta.add_rs_meta, h]
    refine ⟨?_, Or.inr ⟨hex, ?_⟩⟩
    · simp [hex]
    · simp

/-- C4 (as stated, refuted): for the non-empty `rs_metas` that holds the single
version (0, 0), `max_version()` returns (-1, 0), which is the `(start, end)` of
no entry. -/
theorem max_version_single_zero_rowset :
    (exampleMeta [(1, 0, 0)] [] [] exampleTask)._rs_metas ≠ []
    ∧ (exampleMeta [(1, 0, 0)] [] [] exampleTask).max_version (exampleEnv false) = (-1, 0)
    ∧ ¬ ∃ rs ∈ (exampleMeta [(1, 0, 0)] [] [] exampleTask)._rs_metas,
          (exampleEnv false).version rs
            = (exampleMeta [(1, 0, 0)] [] [] exampleTask).max_version (exampleEnv false) := by
  decide

/-- C4 (amended): for every `rs_metas`, either some entry has an end greater than
0 and `max_version()` returns the `(start, end)` of an entry of `rs_metas`
whose end is greater than or equal to the end of every entry, or no entry has
an end greater than 0 (in particular `rs_metas` is empty) and it returns (-1, 0); the
ranges [(0,0),(1,5),(6,10)] give (6,10). -/
theorem max_version_greatest_end (env : Env R RPB S Store) (self : TabletMeta R RPB S) :
    (((∃ rs ∈ self._rs_metas, 0 < env.end_version rs)
        ∧ (∃ rs ∈ self._rs_metas, env.version rs = self.max_version env)
        ∧ ∀ rs ∈ self._rs_metas, env.end_version rs ≤ (self.max_version env).2)
      ∨ ((¬ ∃ rs ∈ self._rs_metas, 0 < env.end_version rs)
        ∧ self.max_version env = (-1, 0)))
    ∧ (exampleMeta [(1, 0, 0), (2, 1, 5), (3, 6, 10)] [] [] exampleTask).max_version
        (exampleEnv false) = (6, 10) := by
  refine ⟨?_, by decide⟩
  by_cases h : ∃ rs ∈ self._rs_metas, 0 < env.end_version rs
  · left
    obtain ⟨hcase, _, hend⟩ := max_version_fold env self._rs_metas (-1, 0)
    refine ⟨h, ?_, hend⟩
    rcases hcase with hc | hc
    · exfalso
      obtain ⟨rs, hrs, hpos⟩ := h
      have hle := hend rs hrs
      rw [hc] at hle
      simp only at hle
      omega
    · exact hc
  · right
    exact ⟨h, max_version_fold_none env self._rs_metas h⟩

/-- C5: for every log with at most one entry per version, every version `v` and
predicates `p` and `q`, after `add_delete_predicate(p, v)` followed by
`add_delete_predicate(q, v)` (both return `OLAP_SUCCESS`) the log has exactly
one entry with version `v`, whose sub-predicates are exactly those of `q`, and
the entries of the other versions are the original ones in their original
order. -/
theorem add_delete_predicate_twice_replaces (self : TabletMeta R RPB S)
    (p q : DeletePredicatePB) (v : Int)
    (hlog : (self._del_pred_array.map (fun d => d.version)).Nodup) :
    (self.add_delete_predicate p v).1 = OLAP_SUCCESS
    ∧ ((self.add_delete_predicate p v).2.add_delete_predicate q v).1 = OLAP_SUCCESS
    ∧ ((self.add_delete_predicate p v).2.add_delete_predicate q v).2._del_pred_array.filter
          (fun d => decide (d.version = v)) = [⟨v, q.sub_predicates⟩]
    ∧ ((self.add_delete_predicate p v).2.add_delete_predicate q v).2._del_pred_array.filter
          (fun d => decide (¬ d.version = v))
        = self._del_pred_array.filter (fun d => decide (¬ d.version = v)) := by
  refine ⟨rfl, rfl, ?_, ?_⟩
  · simp only [TabletMeta.add_delete_predicate]
    apply add_delete_predicate_array_present
    · rcases add_delete_predicate_array_versions p v self._del_pred_array with ⟨hm, he⟩ | ⟨_, he⟩
      · rw [he]; exact hm
      · rw [he]; simp
    · rcases add_delete_predicate_array_versions p v self._del_pred_array with ⟨_, he⟩ | ⟨hm, he⟩
      · rw [he]; exact hlog
      · rw [he, List.nodup_append]
        refine ⟨hlog, by simp, ?_⟩
        intro a ha hb
        simp only [List.mem_singleton] at hb
        exact hm (hb ▸ ha)
  · simp only [TabletMeta.add_delete_predicate]
    rw [add_delete_predicate_array_others, add_delete_predicate_array_others]

/-- C5, applied to a log that holds version 3: `["a>1"]` then `["b<2"]` at
version 5 leaves one entry for 5 with `["b<2"]` and the entry for 3 in place. -/
theorem add_delete_predicate_twice_replaces_witness :
    ((exampleMeta [] [] [⟨3, ["c=0"]⟩] exampleTask)._del_pred_array.map
        (fun d => d.version)).Nodup
    ∧ (((exampleMeta [] [] [⟨3, ["c=0"]⟩] exampleTask).add_delete_predicate
          ⟨5, ["a>1"]⟩ 5).2.add_delete_predicate ⟨5, ["b<2"]⟩ 5).2._del_pred_array
        = [⟨3, ["c=0"]⟩, ⟨5, ["b<2"]⟩]
    ∧ (((exampleMeta [] [] [⟨3, ["c=0"]⟩] exampleTask).add_delete_predicate
          ⟨5, ["a>1"]⟩ 5).2.add_delete_predicate ⟨5, ["b<2"]⟩ 5).2._del_pred_array.filter
          (fun d => decide (d.version = 5)) = [⟨5, ["b<2"]⟩] :=
  ⟨by decide, by decide,
   (add_delete_predicate_twice_replaces (exampleMeta [] [] [⟨3, ["c=0"]⟩] exampleTask)
      ⟨5, ["a>1"]⟩ ⟨5, ["b<2"]⟩ 5 (by decide)).2.2.1⟩

/-- C6 (as stated, refuted): on a log that holds two entries of
version 5, `remove_delete_predicate_by_version((5, 5))` returns `OLAP_SUCCESS`
with the second entry still in the log, in a debug build and in a release
build: after the first entry is swapped with the last and popped, the loop
moves on to index 1 and never tests the entry that was swapped into index 0. -/
theorem remove_delete_predicate_skips_swapped_entry :
    (exampleMeta [] [] [⟨5, ["a>1"]⟩, ⟨5, ["b<2"]⟩] exampleTask).remove_delete_predicate_by_version
        (exampleEnv false) (5, 5)
      = some (OLAP_SUCCESS, exampleMeta [] [] [⟨5, ["b<2"]⟩] exampleTask)
    ∧ (exampleMeta [] [] [⟨5, ["a>1"]⟩, ⟨5, ["b<2"]⟩] exampleTask).remove_delete_predicate_by_version
        (exampleEnv true) (5, 5)
      = some (OLAP_SUCCESS, exampleMeta [] [] [⟨5, ["b<2"]⟩] exampleTask) := by
  constructor <;>
    simp [TabletMeta.remove_delete_predicate_by_version, exampleMeta, exampleEnv, remove_scan,
      SwapElements, RemoveLast]

/-- C6 (amended): for every delete-predicate log that holds at most one entry
with version `v`, `remove_delete_predicate_by_version((v, v))` returns
`OLAP_SUCCESS`, in a debug build and in a release build; after the call no
entry with version `v` remains and the surviving entries are, as a multiset,
exactly the prior entries whose version differs from `v`. -/
theorem remove_delete_predicate_by_version_removes (env : Env R RPB S Store)
    (self : TabletMeta R RPB S) (v : Int)
    (hone : self._del_pred_array.countP (fun d => decide (d.version = v)) ≤ 1) :
    ∃ out, self.remove_delete_predicate_by_version env (v, v) = some (OLAP_SUCCESS, out)
      ∧ (∀ d ∈ out._del_pred_array, d.version ≠ v)
      ∧ out._del_pred_array.Perm
          (self._del_pred_array.filter (fun d => decide (¬ d.version = v))) := by
  have hspec := remove_scan_spec v self._del_pred_array 0
    (fun j _ hj => absurd hj (Nat.not_lt_zero j)) hone
  refine ⟨{ self with _del_pred_array := remove_scan v self._del_pred_array 0 }, ?_,
    hspec.1, hspec.2⟩
  simp [TabletMeta.remove_delete_predicate_by_version]

/-- C6 (amended), applied to a log with one entry for each of the versions 5, 6
and 7: removing version 5 moves the last entry into the first place and leaves
the entries for 7 and 6. -/
theorem remove_delete_predicate_by_version_removes_witness :
    (exampleMeta [] [] [⟨5, ["a>1"]⟩, ⟨6, ["b<2"]⟩, ⟨7, ["c=0"]⟩] exampleTask)._del_pred_array.countP
        (fun d => decide (d.version = 5)) ≤ 1
    ∧ (exampleMeta [] [] [⟨5, ["a>1"]⟩, ⟨6, ["b<2"]⟩, ⟨7, ["c=0"]⟩]
          exampleTask).remove_delete_predicate_by_version (exampleEnv true) (5, 5)
        = some (OLAP_SUCCESS, exampleMeta [] [] [⟨7, ["c=0"]⟩, ⟨6, ["b<2"]⟩] exampleTask)
    ∧ ∃ out, (exampleMeta [] [] [⟨5, ["a>1"]⟩, ⟨6, ["b<2"]⟩, ⟨7, ["c=0"]⟩]
          exampleTask).remove_delete_predicate_by_version (exampleEnv true) (5, 5)
        = some (OLAP_SUCCESS, out)
      ∧ (∀ d ∈ out._del_pred_array, d.version ≠ 5)
      ∧ out._del_pred_array.Perm
          ((exampleMeta [] [] [⟨5, ["a>1"]⟩, ⟨6, ["b<2"]⟩, ⟨7, ["c=0"]⟩]
            exampleTask)._del_pred_array.filter (fun d => decide (¬ d.version = 5))) :=
  ⟨by decide,
   by simp [TabletMeta.remove_delete_predicate_by_version, exampleMeta, exampleEnv, remove_scan,
        SwapElements, RemoveLast],
   remove_delete_predicate_by_version_removes (exampleEnv true)
     (exampleMeta [] [] [⟨5, ["a>1"]⟩, ⟨6, ["b<2"]⟩, ⟨7, ["c=0"]⟩] exampleTask) 5 (by decide)⟩

/-- C7 (as stated, refuted): in a release build (`DCHECK` compiled out),
`remove_delete_predicate_by_version((5, 6))` on a log that holds an entry for
version 5 is not rejected: it returns `OLAP_SUCCESS` and the entry is gone. -/
theorem remove_delete_predicate_non_singleton_release :
    (exampleMeta [] [] [⟨5, ["a>1"]⟩] exampleTask).remove_delete_predicate_by_version
        (exampleEnv false) (5, 6)
      = some (OLAP_SUCCESS, exampleMeta [] [] [] exampleTask) := by
  simp [TabletMeta.remove_delete_predicate_by_version, exampleMeta, exampleEnv, remove_scan,
    SwapElements, RemoveLast]

/-- C7 (amended): for every log and every version with `first != second`, with
`DCHECK` compiled in the call ends the process at the assertion and the log is
never touched; with `DCHECK` compiled out the call is not rejected: it returns
`OLAP_SUCCESS` and does to the log what the call for the singleton
`(first, first)` does. -/
theorem remove_delete_predicate_non_singleton (env : Env R RPB S Store)
    (self : TabletMeta R RPB S) (version : Version) (hne : version.1 ≠ version.2) :
    (env.dcheck_is_on = true ∧ self.remove_delete_predicate_by_version env version = none)
    ∨ (env.dcheck_is_on = false
        ∧ (∃ out, self.remove_delete_predicate_by_version env version = some (OLAP_SUCCESS, out))
        ∧ self.remove_delete_predicate_by_version env version
            = self.remove_delete_predicate_by_version env (version.1, version.1)) := by
  cases hd : env.dcheck_is_on
  · right
    simp [TabletMeta.remove_delete_predicate_by_version, hd]
  · left
    simp [TabletMeta.remove_delete_predicate_by_version, hd, hne]

/-- C7 (amended), applied to a log that holds an entry for version 5 and the
version (5, 6) in a debug build, where the call aborts; the call for (5, 5)
removes the entry. -/
theorem remove_delete_predicate_non_singleton_witness :
    ((5 : Int), (6 : Int)).1 ≠ ((5 : Int), (6 : Int)).2
    ∧ (exampleMeta [] [] [⟨5, ["a>1"]⟩] exampleTask).remove_delete_predicate_by_version
        (exampleEnv true) (5, 6) = none
    ∧ (exampleMeta [] [] [⟨5, ["a>1"]⟩] exampleTask).remove_delete_predicate_by_version
        (exampleEnv true) (5, 5) = some (OLAP_SUCCESS, exampleMeta [] [] [] exampleTask) := by
  refine ⟨by decide, ?_, ?_⟩
  · rcases remove_delete_predicate_non_singleton (exampleEnv true)
        (exampleMeta [] [] [⟨5, ["a>1"]⟩] exampleTask) (5, 6) (by decide) with h | h
    · exact h.2
    · exact absurd h.1 (by decide)
  · simp [TabletMeta.remove_delete_predicate_by_version, exampleMeta, exampleEnv, remove_scan,
      SwapElements, RemoveLast]

/-- C8: for every log and every version `v`, `version_for_delete_predicate(v)`
returns true exactly when `v.first == v.second` and the log holds an entry
whose version is `v.first`; the record, and so the log, is unchanged. -/
theorem version_for_delete_predicate_iff (self : TabletMeta R RPB S) (version : Version) :
    ((self.version_for_delete_predicate version).1 = true
        ↔ version.1 = version.2 ∧ ∃ d ∈ self._del_pred_array, d.version = version.1)
    ∧ (self.version_for_delete_predicate version).2 = self := by
  unfold TabletMeta.version_for_delete_predicate
  by_cases h : version.1 = version.2
  · simp [h, has_delete_predicate_iff]
  · simp [h]

/-- C9: for every record, with or without an alter task in progress, every
sequence `new_set` and every store, after `revise_rs_metas(new_set)` the alter
task is absent (in memory: state `ALTER_NONE`, related tablet id and schema
hash -1; in the rebuilt aggregate form: no alter task), `rs_metas` is `new_set`
exactly, in the same order, with none of the prior entries kept (and the
aggregate form lists the encodings of `new_set`), and `inc_rs_metas` is
unchanged. -/
theorem revise_rs_metas_replaces (env : Env R RPB S Store) (self : TabletMeta R RPB S)
    (new_set : List R) (store : Store) :
    (self.revise_rs_metas env new_set store).2.1._alter_task._alter_state
        = AlterTabletState.ALTER_NONE
    ∧ (self.revise_rs_metas env new_set store).2.1._alter_task._related_tablet_id = -1
    ∧ (self.revise_rs_metas env new_set store).2.1._alter_task._related_schema_hash = -1
    ∧ (self.revise_rs_metas env new_set store).2.1._tablet_meta_pb.alter_tablet_task = none
    ∧ (self.revise_rs_metas env new_set store).2.1._rs_metas = new_set
    ∧ (self.revise_rs_metas env new_set store).2.1._tablet_meta_pb.rs_metas
        = new_set.map env.to_rowset_pb
    ∧ (self.revise_rs_metas env new_set store).2.1._inc_rs_metas = self._inc_rs_metas := by
  unfold TabletMeta.revise_rs_metas
  rw [rebuild_and_save_record]
  simp [TabletMeta.to_tablet_pb_unlock, TabletMetaPB.empty, AlterTabletTask.clear]

/-- C10: whether `add_rs_meta(rs)` is rejected depends on `rs_metas` only (two
records with the same `rs_metas` get the same status, whatever their
`inc_rs_metas`), and whether `add_inc_rs_meta(rs)` is rejected depends on
`inc_rs_metas` only (two records with the same `inc_rs_metas`, whatever their
`rs_metas` and stores, are both rejected unchanged or both get `rs` appended);
`add_rs_meta` leaves `inc_rs_metas` unchanged and `add_inc_rs_meta` leaves
`rs_metas` unchanged; on a record whose two sequences are empty, with the store
accepting the write, adding `rs` to `rs_metas` and then to `inc_rs_metas`
succeeds both times. -/
theorem add_rs_meta_add_inc_rs_meta_independent (env : Env R RPB S Store)
    (self o1 o2 e : TabletMeta R RPB S) (rs_meta : R) (store store2 : Store)
    (hrs : o1._rs_metas = self._rs_metas)
    (hinc : o2._inc_rs_metas = self._inc_rs_metas)
    (hempty : e._rs_metas = [] ∧ e._inc_rs_metas = [])
    (hsave : ∀ d t h b, (env.save store d t h b).1 = OLAP_SUCCESS) :
    (o1.add_rs_meta env rs_meta).1 = (self.add_rs_meta env rs_meta).1
    ∧ ((self.add_inc_rs_meta env rs_meta store = (OLAP_ERR_ROWSET_ALREADY_EXIST, self, store)
          ∧ o2.add_inc_rs_meta env rs_meta store2 = (OLAP_ERR_ROWSET_ALREADY_EXIST, o2, store2))
       ∨ ((self.add_inc_rs_meta env rs_meta store).2.1._inc_rs_metas
              = self._inc_rs_metas ++ [rs_meta]
          ∧ (o2.add_inc_rs_meta env rs_meta store2).2.1._inc_rs_metas
              = o2._inc_rs_metas ++ [rs_meta]))
    ∧ (self.add_rs_meta env rs_meta).2._inc_rs_metas = self._inc_rs_metas
    ∧ (self.add_inc_rs_meta env rs_meta store).2.1._rs_metas = self._rs_metas
    ∧ (e.add_rs_meta env rs_meta).1 = OLAP_SUCCESS
    ∧ ((e.add_rs_meta env rs_meta).2.add_inc_rs_meta env rs_meta store).1 = OLAP_SUCCESS
    ∧ ((e.add_rs_meta env rs_meta).2.add_inc_rs_meta env rs_meta store).2.1._rs_metas
        = [rs_meta]
    ∧ ((e.add_rs_meta env rs_meta).2.add_inc_rs_meta env rs_meta store).2.1._inc_rs_metas
        = [rs_meta] := by
  have he1 : ¬ rowset_already_exist env rs_meta e._rs_metas = true := by
    rw [hempty.1]; simp [rowset_already_exist]
  have hadd := add_rs_meta_of_not_exist env e rs_meta he1
  have he2 : ¬ rowset_already_exist env rs_meta (e.add_rs_meta env rs_meta).2._inc_rs_metas
      = true := by
    rw [hadd.2, hempty.2]; simp [rowset_already_exist]
  have hinc2 := add_inc_rs_meta_of_not_exist env (e.add_rs_meta env rs_meta).2 rs_meta store he2
  refine ⟨?_, ?_, ?_, ?_, ?_, ?_, ?_, ?_⟩
  · rw [add_rs_meta_status, add_rs_meta_status, hrs]
  · by_cases h : rowset_already_exist env rs_meta self._inc_rs_metas = true
    · left
      exact ⟨add_inc_rs_meta_of_exist env self rs_meta store h,
        add_inc_rs_meta_of_exist env o2 rs_meta store2 (hinc ▸ h)⟩
    · right
      exact ⟨(add_inc_rs_meta_of_not_exist env self rs_meta store h).1,
        (add_inc_rs_meta_of_not_exist env o2 rs_meta store2 (hinc ▸ h)).1⟩
  · unfold TabletMeta.add_rs_meta
    split <;> rfl
  · by_cases h : rowset_already_exist env rs_meta self._inc_rs_metas = true
    · rw [add_inc_rs_meta_of_exist env self rs_meta store h]
    · exact (add_inc_rs_meta_of_not_exist env self rs_meta store h).2
  · rw [add_rs_meta_status, if_neg he1]
  · exact add_inc_rs_meta_status_of_saved env _ rs_meta store he2 hsave
  · rw [hinc2.2, hadd.1, hempty.1]; rfl
  · rw [hinc2.1, hadd.2, hempty.2]; rfl

/-- C10, applied in the example environment: a record that holds version (0, 5)
in `rs_metas` only, one with the same `rs_metas` and another `inc_rs_metas`,
one with the same `inc_rs_metas` and another `rs_metas`, and an empty record to
which the range (0, 5) is added twice. -/
theorem add_rs_meta_add_inc_rs_meta_independent_witness :
    (exampleMeta [(1, 0, 5)] [(2, 0, 5)] [] exampleTask)._rs_metas
        = (exampleMeta [(1, 0, 5)] [] [] exampleTask)._rs_metas
    ∧ (∀ d t h b, ((exampleEnv false).save [] d t h b).1 = OLAP_SUCCESS)
    ∧ ((exampleMeta [(1, 0, 5)] [(2, 0, 5)] [] exampleTask).add_rs_meta (exampleEnv false)
          (3, 0, 5)).1 = OLAP_ERR_ROWSET_ALREADY_EXIST
    ∧ (((exampleMeta [] [] [] exampleTask).add_rs_meta (exampleEnv false)
          (3, 0, 5)).2.add_inc_rs_meta (exampleEnv false) (3, 0, 5) []).1 = OLAP_SUCCESS :=
  ⟨rfl, fun _ _ _ _ => rfl, by decide,
   (add_rs_meta_add_inc_rs_meta_independent (exampleEnv false)
      (exampleMeta [(1, 0, 5)] [] [] exampleTask)
      (exampleMeta [(1, 0, 5)] [(2, 0, 5)] [] exampleTask)
      (exampleMeta [(4, 7, 7)] [] [] exampleTask)
      (exampleMeta [] [] [] exampleTask) (3, 0, 5) [] []
      rfl rfl ⟨rfl, rfl⟩ (fun _ _ _ _ => rfl)).2.2.2.2.2.1⟩

/-- C11 (the code at the failing input): `modify_rs_metas` with nothing to add
and the version (1, 5) to delete, on a record whose `rs_metas` holds the single
version (0, 0), does not return, whatever the fuel: the scan loop finds that
the first entry does not match and tests it again without advancing. The
filter-then-append of the claim would return with `rs_metas` unchanged. -/
theorem modify_rs_metas_never_returns (fuel : Nat) :
    (exampleMeta [(1, 0, 0)] [] [] exampleTask).modify_rs_metas (exampleEnv false) fuel
        [] [(2, 1, 5)] [] = none := by
  have hstuck := erase_scan_stuck (exampleEnv false) ((1 : Int), (5 : Int)) ((1 : Int), (0 : Int), (0 : Int)) []
    (by decide) fuel
  simp only [TabletMeta.modify_rs_metas, exampleMeta, delete_each]
  have hv : (exampleEnv false).version ((2 : Int), (1 : Int), (5 : Int)) = ((1 : Int), (5 : Int)) := rfl
  rw [hv, hstuck]

/-- C12 (the code at the failing input): on a record that holds the single
version (0, 0) in `rs_metas` and in `inc_rs_metas`,
`delete_rs_meta_by_version((1, 1))` and `delete_inc_rs_meta_by_version((1, 1))`
do not return, whatever the fuel: the first entry differs from the version and
the loop tests it again and again. -/
theorem delete_by_version_never_returns (fuel : Nat) :
    (exampleMeta [(1, 0, 0)] [(2, 0, 0)] [] exampleTask).delete_rs_meta_by_version
        (exampleEnv false) fuel (1, 1) [] = none
    ∧ (exampleMeta [(1, 0, 0)] [(2, 0, 0)] [] exampleTask).delete_inc_rs_meta_by_version
        (exampleEnv false) fuel (1, 1) [] = none := by
  have h1 := erase_scan_stuck (exampleEnv false) ((1 : Int), (1 : Int)) ((1 : Int), (0 : Int), (0 : Int)) []
    (by decide) fuel
  have h2 := erase_scan_stuck (exampleEnv false) ((1 : Int), (1 : Int)) ((2 : Int), (0 : Int), (0 : Int)) []
    (by decide) fuel
  constructor
  · simp only [TabletMeta.delete_rs_meta_by_version, exampleMeta]
    rw [h1]
  · simp only [TabletMeta.delete_inc_rs_meta_by_version, exampleMeta]
    rw [h2]

/-- C13 (the code at the failing input): a record gets an alter task by a
successful `add_alter_task`; `delete_alter_task` against a store that refuses
the write returns the store's `OLAP_ERR_IO_ERROR` and leaves the in-memory
alter task as it was (state `ALTER_RUNNING`, related tablet id 9, schema hash
10), while the cached aggregate form has lost its alter task. -/
theorem delete_alter_task_keeps_task_on_failed_save :
    (((exampleMeta [] [] [] (AlterTabletTask.new AlterTabletType.ROLLUP)).add_alter_task
        (exampleEnv false) exampleTask []).2.1.delete_alter_task failingEnv []).1
      = OLAP_ERR_IO_ERROR
    ∧ (((exampleMeta [] [] [] (AlterTabletTask.new AlterTabletType.ROLLUP)).add_alter_task
        (exampleEnv false) exampleTask []).2.1.delete_alter_task failingEnv []).2.1._alter_task
      = exampleTask
    ∧ (((exampleMeta [] [] [] (AlterTabletTask.new AlterTabletType.ROLLUP)).add_alter_task
        (exampleEnv false) exampleTask []).2.1.delete_alter_task failingEnv
          []).2.1._tablet_meta_pb.alter_tablet_task
      = none := by
  decide

/-- C14: when the store refuses the write, `add_inc_rs_meta(rs)` on a record with
no entry of the version of `rs` in `inc_rs_metas` returns exactly the status of
the store for the blob it handed over, which is not `OLAP_SUCCESS`, and
`inc_rs_metas` is the prior sequence with `rs` appended;
`revise_rs_metas(new_set)` returns exactly the status of the store for its blob,
which is not `OLAP_SUCCESS`, and `rs_metas` is `new_set`. -/
theorem no_rollback_on_failed_save (env : Env R RPB S Store) (self : TabletMeta R RPB S)
    (rs_meta : R) (new_set : List R) (store : Store)
    (hnew : ¬ ∃ rs ∈ self._inc_rs_metas, env.version rs = env.version rs_meta)
    (hfail : ∀ d t h b, (env.save store d t h b).1 ≠ OLAP_SUCCESS) :
    (self.add_inc_rs_meta env rs_meta store).1
        = (env.save store self._data_dir self._tablet_id self._schema_hash
            (self.add_inc_rs_meta env rs_meta store).2.1._tablet_meta_pb).1
    ∧ (self.add_inc_rs_meta env rs_meta store).1 ≠ OLAP_SUCCESS
    ∧ (self.add_inc_rs_meta env rs_meta store).2.1._inc_rs_metas
        = self._inc_rs_metas ++ [rs_meta]
    ∧ (self.revise_rs_metas env new_set store).1
        = (env.save store self._data_dir self._tablet_id self._schema_hash
            (self.revise_rs_metas env new_set store).2.1._tablet_meta_pb).1
    ∧ (self.revise_rs_metas env new_set store).1 ≠ OLAP_SUCCESS
    ∧ (self.revise_rs_metas env new_set store).2.1._rs_metas = new_set := by
  have hne : ¬ rowset_already_exist env rs_meta self._inc_rs_metas = true :=
    fun h => hnew ((rowset_already_exist_iff env rs_meta self._inc_rs_metas).1 h)
  have hinc := add_inc_rs_meta_status_of_not_exist env self rs_meta store hne
  have hrev : (self.revise_rs_metas env new_set store).1
      = (env.save store self._data_dir self._tablet_id self._schema_hash
          (self.revise_rs_metas env new_set store).2.1._tablet_meta_pb).1 := by
    unfold TabletMeta.revise_rs_metas
    exact rebuild_and_save_status env _ store
  refine ⟨hinc, ?_, (add_inc_rs_meta_of_not_exist env self rs_meta store hne).1, hrev, ?_, ?_⟩
  · rw [hinc]; exact hfail _ _ _ _
  · rw [hrev]; exact hfail _ _ _ _
  · exact revise_rs_metas_rs_metas env self new_set store

/-- C14, applied with the store that refuses every write: a rowset of version
(1, 5) is added to `inc_rs_metas` that holds (0, 0), and the call returns
`OLAP_ERR_IO_ERROR` with both entries in `inc_rs_metas`. -/
theorem no_rollback_on_failed_save_witness :
    (¬ ∃ rs ∈ (exampleMeta [(1, 0, 0)] [(2, 0, 0)] [] exampleTask)._inc_rs_metas,
          failingEnv.version rs = failingEnv.version (3, 1, 5))
    ∧ (∀ d t h b, (failingEnv.save [] d t h b).1 ≠ OLAP_SUCCESS)
    ∧ ((exampleMeta [(1, 0, 0)] [(2, 0, 0)] [] exampleTask).add_inc_rs_meta failingEnv
          (3, 1, 5) []).1 = OLAP_ERR_IO_ERROR
    ∧ ((exampleMeta [(1, 0, 0)] [(2, 0, 0)] [] exampleTask).add_inc_rs_meta failingEnv
          (3, 1, 5) []).2.1._inc_rs_metas = [(2, 0, 0), (3, 1, 5)] :=
  ⟨by decide, fun _ _ _ _ => by show OLAP_ERR_IO_ERROR ≠ OLAP_SUCCESS; decide, by decide,
   (no_rollback_on_failed_save failingEnv (exampleMeta [(1, 0, 0)] [(2, 0, 0)] [] exampleTask)
      (3, 1, 5) [(4, 0, 9)] [] (by decide)
      (fun _ _ _ _ => by show OLAP_ERR_IO_ERROR ≠ OLAP_SUCCESS; decide)).2.2.1⟩

/-- C15 (the code at the failing input): `create` for a schema description with
two columns and the map 0 -> 10, 1 -> 11 returns a record whose two columns
both have unique id 10, in the cached aggregate form and in the schema decoded
from it: `col_ordinal` is 0 in every iteration of the column loop. -/
theorem create_gives_every_column_the_first_unique_id :
    (TabletMeta.create (exampleEnv false) exampleCreateEnv (exampleMeta [] [] [] exampleTask)
        1 2 3 4 5
        { short_key_column_count := 1, keys_type := TKeysType.DUP_KEYS,
          columns := [exampleColumn "k" true none, exampleColumn "v" false none],
          bloom_filter_fpp := none }
        12 [(0, 10), (1, 11)]).map
        (fun out => (out.1, out.2._tablet_meta_pb.schema.column.map (fun c => c.unique_id),
                     out.2._schema.column.map (fun c => c.unique_id)))
      = some (OLAP_SUCCESS, [10, 10], [10, 10]) := by
  decide

/-- C16 (the code at the failing input): `create` for a schema description whose
only column sets `is_bloom_filter_column` to false, and which sets
`bloom_filter_fpp` to 1/20, returns a record whose schema has `bf_fpp` set to
1/20 although no column is a bloom filter column: `has_bf_columns` becomes true
as soon as a column sets the member, whatever its value. -/
theorem create_sets_bf_fpp_without_bloom_filter_column :
    (TabletMeta.create (exampleEnv false) exampleCreateEnv (exampleMeta [] [] [] exampleTask)
        1 2 3 4 5
        { short_key_column_count := 1, keys_type := TKeysType.DUP_KEYS,
          columns := [exampleColumn "k" true (some false)],
          bloom_filter_fpp := some (1 / 20) }
        12 [(0, 10)]).map
        (fun out => (out.2._tablet_meta_pb.schema.column.map (fun c => c.is_bf_column),
                     out.2._tablet_meta_pb.schema.bf_fpp, out.2._schema.bf_fpp))
      = some ([some false], some (1 / 20), some (1 / 20)) := by
  rfl

/-- C17 (the code at the failing input): a record gets the alter task `t` by a
successful `add_alter_task(t)`, after which its cached aggregate form holds
`t`. A later `set_cumulative_layer_point`, `set_shard_id`, `modify_rs_metas` or
`delete_inc_rs_meta_by_version` keeps `t` in memory and leaves a cached
aggregate form without an alter task; the blob the last two hand to the store
has no alter task either. -/
theorem rebuild_drops_alter_task_from_aggregate_form :
    ((exampleMeta [] [(2, 0, 0)] [] (AlterTabletTask.new AlterTabletType.ROLLUP)).add_alter_task
        (exampleEnv false) exampleTask []).1 = OLAP_SUCCESS
    ∧ ((exampleMeta [] [(2, 0, 0)] [] (AlterTabletTask.new AlterTabletType.ROLLUP)).add_alter_task
        (exampleEnv false) exampleTask []).2.1._tablet_meta_pb.alter_tablet_task
        = some ⟨AlterTabletState.ALTER_RUNNING, 9, 10, AlterTabletType.ROLLUP, []⟩
    ∧ ((((exampleMeta [] [(2, 0, 0)] [] (AlterTabletTask.new AlterTabletType.ROLLUP)).add_alter_task
          (exampleEnv false) exampleTask []).2.1.set_cumulative_layer_point
          (exampleEnv false) 3)._alter_task,
        (((exampleMeta [] [(2, 0, 0)] [] (AlterTabletTask.new AlterTabletType.ROLLUP)).add_alter_task
          (exampleEnv false) exampleTask []).2.1.set_cumulative_layer_point
          (exampleEnv false) 3)._tablet_meta_pb.alter_tablet_task)
        = (exampleTask, none)
    ∧ ((((exampleMeta [] [(2, 0, 0)] [] (AlterTabletTask.new AlterTabletType.ROLLUP)).add_alter_task
          (exampleEnv false) exampleTask []).2.1.set_shard_id (exampleEnv false) 8)._alter_task,
        (((exampleMeta [] [(2, 0, 0)] [] (AlterTabletTask.new AlterTabletType.ROLLUP)).add_alter_task
          (exampleEnv false) exampleTask []).2.1.set_shard_id
          (exampleEnv false) 8)._tablet_meta_pb.alter_tablet_task)
        = (exampleTask, none)
    ∧ (((exampleMeta [] [(2, 0, 0)] [] (AlterTabletTask.new AlterTabletType.ROLLUP)).add_alter_task
          (exampleEnv false) exampleTask []).2.1.modify_rs_metas (exampleEnv false) 1
          [(5, 1, 5)] [] []).map
        (fun out => (out.1, out.2.1._alter_task, out.2.1._tablet_meta_pb.alter_tablet_task,
                     out.2.2.map (fun blob => blob.alter_tablet_task)))
        = some (OLAP_SUCCESS, exampleTask, none, [none])
    ∧ (((exampleMeta [] [(2, 0, 0)] [] (AlterTabletTask.new AlterTabletType.ROLLUP)).add_alter_task
          (exampleEnv false) exampleTask []).2.1.delete_inc_rs_meta_by_version (exampleEnv false) 2
          (0, 0) []).map
        (fun out => (out.1, out.2.1._alter_task, out.2.1._tablet_meta_pb.alter_tablet_task,
                     out.2.2.map (fun blob => blob.alter_tablet_task)))
        = some (OLAP_SUCCESS, exampleTask, none, [none]) := by
  exact ⟨by decide, by decide, by decide, by decide, rfl, rfl⟩

/-- C18: `acquire_inc_rs_meta(v)` returns none exactly when no entry of
`inc_rs_metas` has the `(start, end)` of `v`; otherwise it returns the first
entry of `inc_rs_metas` whose `(start, end)` is `v` (every entry before it has
another version); the result is the same whatever `rs_metas` holds. The method
is `const`: it returns a handle and no new record. -/
theorem acquire_inc_rs_meta_first_match (env : Env R RPB S Store) (self : TabletMeta R RPB S)
    (version : Version) (other_rs : List R) :
    ((self.acquire_inc_rs_meta env version = none
        ∧ ∀ x ∈ self._inc_rs_metas, env.version x ≠ version)
      ∨ ∃ pre r post, self._inc_rs_metas = pre ++ r :: post
          ∧ (∀ x ∈ pre, env.version x ≠ version)
          ∧ env.version r = version
          ∧ self.acquire_inc_rs_meta env version = some r)
    ∧ (self.acquire_inc_rs_meta env version = none
        ↔ ∀ x ∈ self._inc_rs_metas, env.version x ≠ version)
    ∧ ({ self with _rs_metas := other_rs }).acquire_inc_rs_meta env version
        = self.acquire_inc_rs_meta env version := by
  refine ⟨?_, acquire_scan_none env version self._inc_rs_metas, rfl⟩
  cases h : self.acquire_inc_rs_meta env version with
  | none =>
    exact Or.inl ⟨rfl, (acquire_scan_none env version self._inc_rs_metas).1 h⟩
  | some r =>
    obtain ⟨pre, post, hl, hpre, hr⟩ := acquire_scan_some env version self._inc_rs_metas r h
    exact Or.inr ⟨pre, r, post, hl, hpre, hr, rfl⟩

/-- C20 (the code at the failing input): the record S holds the single rowset of
version (1, 5), added by `add_rs_meta`, so its cached form lists it; the record
R holds version (0, 0) in `rs_metas` and in `inc_rs_metas`. After
`R.deserialize(S.serialize())` the call has returned `OLAP_SUCCESS`, `rs_metas`
of R is its old entry followed by the decoded one and `inc_rs_metas` of R
still holds its old entry, while the cached aggregate form of R lists only the
rowset of S. -/
theorem deserialize_appends_to_existing_rowsets :
    (((exampleMeta [] [] [] exampleTask).add_rs_meta (exampleEnv false) (3, 1, 5)).2._rs_metas,
      ((exampleMeta [] [] [] exampleTask).add_rs_meta (exampleEnv false) (3, 1, 5)).2._inc_rs_metas)
      = ([(3, 1, 5)], [])
    ∧ ((exampleMeta [(1, 0, 0)] [(2, 0, 0)] [] exampleTask).deserialize (exampleEnv false)
        ((exampleMeta [] [] [] exampleTask).add_rs_meta (exampleEnv false)
          (3, 1, 5)).2.serialize.2).1 = OLAP_SUCCESS
    ∧ ((exampleMeta [(1, 0, 0)] [(2, 0, 0)] [] exampleTask).deserialize (exampleEnv false)
        ((exampleMeta [] [] [] exampleTask).add_rs_meta (exampleEnv false)
          (3, 1, 5)).2.serialize.2).2._rs_metas = [(1, 0, 0), (3, 1, 5)]
    ∧ ((exampleMeta [(1, 0, 0)] [(2, 0, 0)] [] exampleTask).deserialize (exampleEnv false)
        ((exampleMeta [] [] [] exampleTask).add_rs_meta (exampleEnv false)
          (3, 1, 5)).2.serialize.2).2._inc_rs_metas = [(2, 0, 0)]
    ∧ (((exampleMeta [(1, 0, 0)] [(2, 0, 0)] [] exampleTask).deserialize (exampleEnv false)
        ((exampleMeta [] [] [] exampleTask).add_rs_meta (exampleEnv false)
          (3, 1, 5)).2.serialize.2).2._tablet_meta_pb.rs_metas,
       ((exampleMeta [(1, 0, 0)] [(2, 0, 0)] [] exampleTask).deserialize (exampleEnv false)
        ((exampleMeta [] [] [] exampleTask).add_rs_meta (exampleEnv false)
          (3, 1, 5)).2.serialize.2).2._tablet_meta_pb.inc_rs_metas) = ([(3, 1, 5)], []) := by
  decide

/-- C21 (the code at the failing input): `set_creation_time(42)` on a record whose
creation time is 6 leaves the creation time at 6, in the member and in the
rebuilt aggregate form: line 586 assigns `_creation_time` to itself and never
reads the parameter. -/
theorem set_creation_time_ignores_its_argument :
    (exampleMeta [] [] [] exampleTask)._creation_time = 6
    ∧ ((exampleMeta [] [] [] exampleTask).set_creation_time (exampleEnv false) 42)._creation_time
        = 6
    ∧ ((exampleMeta [] [] [] exampleTask).set_creation_time
        (exampleEnv false) 42)._tablet_meta_pb.creation_time = 6 := by
  decide

/-- C22: for every `rs_metas`, either no entry has an end greater than 0 and
`max_version()` returns (-1, 0), or `rs_metas` splits as `pre ++ r :: post`
where the end of `r` is greater than 0, greater than the end of every entry of
`pre` and greater than or equal to the end of every entry of `post`, and
`max_version()` returns the `(start, end)` of `r`: the first entry, in sequence
order, whose end is the greatest. The second branch of the scan never changes
the candidate: one iteration takes the version of the entry when its end is
strictly greater and keeps the candidate otherwise. Of two entries with the
same greatest end the earlier wins, whatever their starts. -/
theorem max_version_first_greatest_end (env : Env R RPB S Store) (self : TabletMeta R RPB S) :
    (((¬ ∃ rs ∈ self._rs_metas, 0 < env.end_version rs)
        ∧ self.max_version env = (-1, 0))
      ∨ ∃ pre r post, self._rs_metas = pre ++ r :: post
          ∧ 0 < env.end_version r
          ∧ (∀ x ∈ pre, env.end_version x < env.end_version r)
          ∧ (∀ x ∈ post, env.end_version x ≤ env.end_version r)
          ∧ self.max_version env = env.version r)
    ∧ (∀ (acc : Version) (rs : R),
        max_version_step env acc rs
          = if env.end_version rs > acc.2 then env.version rs else acc)
    ∧ (exampleMeta [(1, 3, 10), (2, 0, 10), (3, 5, 10)] [] [] exampleTask).max_version
        (exampleEnv false) = (3, 10)
    ∧ (exampleMeta [(1, 0, 10), (2, 3, 10)] [] [] exampleTask).max_version
        (exampleEnv false) = (0, 10) := by
  refine ⟨?_, max_version_step_eq env, by decide, by decide⟩
  rcases max_version_fold_first env self._rs_metas (-1, 0) with
    ⟨hall, hf⟩ | ⟨pre, r, post, hl, hlt, hpre, hpost, hf⟩
  · left
    refine ⟨?_, hf⟩
    rintro ⟨rs, hrs, hpos⟩
    have hle := hall rs hrs
    simp only at hle
    omega
  · right
    exact ⟨pre, r, post, hl, hlt, hpre, hpost, hf⟩

end Theorems

end doris
